import Mathlib

/-!
Verification of the reporting/aggregation core of the Sky Cafe board-game
management backend (`google_sheets_api.py`).

The embedding models spreadsheet cell values as `Value` (a Python value that
is absent, a string, or an integer), records as structures whose fields carry
the relevant sheet columns, and each statistics routine as a pure Lean
function translated line by line from the source.  Python string operations
(`strip`, `split`, `replace`, `zfill`, `isdigit`, `int(...)`) are modelled by
executable helpers over `List Char`.
-/

namespace SkyCafe

/-- A spreadsheet/JSON cell value as seen by the Python code: `None`,
a string, or an integer. -/
inductive Value where
  | none
  | str (s : String)
  | int (n : Int)
deriving DecidableEq, Repr

/-- Python truthiness for the values we model: `None`, `""` and `0` are
falsy, everything else truthy. -/
def pyTruthy : Value → Bool
  | Value.none => false
  | Value.str s => s ≠ ""
  | Value.int n => n ≠ 0

/-- Python `str(...)` on a modelled value. -/
def pyStr : Value → String
  | Value.none => "None"
  | Value.str s => s
  | Value.int n => toString n

/-- Strip whitespace from both ends of a character list (model of Python
`str.strip()`). -/
def trimCh (l : List Char) : List Char :=
  ((l.dropWhile Char.isWhitespace).reverse.dropWhile Char.isWhitespace).reverse

/-- Model of Python `str.strip()`. -/
def pyStrip (s : String) : String :=
  String.mk (trimCh s.data)

/-- Split a character list on a separator character, keeping empty pieces,
exactly like Python `str.split(sep)` for a one-character separator. -/
def chSplit (sep : Char) : List Char → List (List Char)
  | [] => [[]]
  | c :: rest =>
    let r := chSplit sep rest
    if c = sep then [] :: r
    else
      match r with
      | h :: t => (c :: h) :: t
      | [] => [[c]]

/-- All characters are ASCII digits and the list is nonempty (model of
Python `str.isdigit()` restricted to ASCII data). -/
def isDigitsCh (l : List Char) : Bool :=
  !l.isEmpty && l.all Char.isDigit

/-- Model of Python `str.isdigit()`. -/
def pyIsdigit (s : String) : Bool :=
  isDigitsCh s.data

/-- Numeric value of a list of ASCII digits. -/
def digitsToNat (l : List Char) : Nat :=
  l.foldl (fun a c => a * 10 + (c.toNat - 48)) 0

/-- Model of Python `int(s)` on a string: strips whitespace, accepts an
optional sign followed by ASCII digits, otherwise raises (returns `none`). -/
def pyInt? (s : String) : Option Int :=
  let t := trimCh s.data
  if isDigitsCh t then some (digitsToNat t : Nat)
  else
    match t with
    | c :: rest =>
      if c = '-' ∧ isDigitsCh rest then some (-(digitsToNat rest : Nat))
      else if c = '+' ∧ isDigitsCh rest then some (digitsToNat rest : Nat)
      else Option.none
    | [] => Option.none

/-- Model of Python `str.zfill(w)`: left-pad with `'0'` to width `w`,
keeping a leading sign in front of the padding. -/
def zfillCh (w : Nat) (l : List Char) : List Char :=
  if w ≤ l.length then l
  else
    match l with
    | c :: rest =>
      if c = '-' ∨ c = '+' then c :: (List.replicate (w - l.length) '0' ++ rest)
      else List.replicate (w - l.length) '0' ++ l
    | [] => List.replicate w '0'

/-- Model of Python `str.zfill(w)` on strings. -/
def zfill (w : Nat) (s : String) : String :=
  String.mk (zfillCh w s.data)

/-- Lexicographic (code-point) comparison of character lists: the order
Python uses for `str <= str`. -/
def lexLE : List Char → List Char → Bool
  | [], _ => true
  | _ :: _, [] => false
  | a :: as, b :: bs =>
    if a < b then true
    else if b < a then false
    else lexLE as bs

/-- Python `a <= b` on strings: lexicographic by code point. -/
def pyStrLE (a b : String) : Bool :=
  lexLE a.data b.data

/-- The date components the normalizer works on: strip the input, take the
part before the first space, and split it on `'/'`
(`_parse_invoice_date`, the part preceding validation). -/
def dateComponents (s : String) : List String :=
  let t := trimCh s.data
  let datePart := (chSplit ' ' t).headD []
  (chSplit '/' datePart).map String.mk

/-- The validation-and-formatting tail of `_parse_invoice_date`, applied
to the component list: zero-pad day and month to 2 and year to 4, require
the padded year to have exactly 4 characters, `int(month) <= 12` and
`int(day) <= 31` (a failing `int(...)` is the caught-exception path), and
return `year-month-day`; any other component count fails. -/
def parse_with_components : List String → Option String
  | [day, month, year] =>
    if (zfill 4 year).length ≠ 4 then Option.none
    else
      match pyInt? (zfill 2 month) with
      | Option.none => Option.none
      | some mo =>
        if mo > 12 then Option.none
        else
          match pyInt? (zfill 2 day) with
          | Option.none => Option.none
          | some da =>
            if da > 31 then Option.none
            else some (zfill 4 year ++ "-" ++ zfill 2 month ++ "-" ++ zfill 2 day)
  | _ => Option.none

/-- `GoogleSheetsAPI._parse_invoice_date`: convert `DD/MM/YYYY[ HH:MM]` to
`YYYY-MM-DD`; `none` models both an explicit `return None` and a caught
exception. -/
def parse_invoice_date (s : String) : Option String :=
  if s = "" then Option.none
  else parse_with_components (dateComponents s)

/-- The cleaning pass of `_safe_parse_amount`: strip whitespace, then drop
every `'đ'`, `','` and `'.'` character. -/
def cleanAmount (s : String) : String :=
  String.mk ((((trimCh s.data).filter (· ≠ 'đ')).filter (· ≠ ',')).filter (· ≠ '.'))

/-- `GoogleSheetsAPI._safe_parse_amount`: parse a currency cell to a number,
returning `0` for falsy input, an empty cleaned string, or a parse failure.
Amounts in the store are integer-valued, so the `float(...)` of the source
is modelled as integer parsing. -/
def safe_parse_amount (v : Value) : Int :=
  if pyTruthy v = false then 0
  else
    let s := cleanAmount (pyStr v)
    if s = "" then 0
    else (pyInt? s).getD 0

/-- One element of the JSON-encoded line-item array stored in an invoice's
`Chi Tiết SP (JSON)` column: the keys `name`, `quantity` and `total` that
`get_product_stats` reads. -/
structure LineItem where
  name : String
  quantity : Int
  total : Value
deriving DecidableEq

/-- An invoice row of the `HOA_DON` sheet, restricted to the columns the
statistics routines read.  `chiTietSP` holds the outcome of
`json.loads` on the `Chi Tiết SP (JSON)` column: `none` models a JSON
string that fails to parse. -/
structure Invoice where
  /-- Column `Ngày Giờ` (timestamp, display format `DD/MM/YYYY HH:MM`). -/
  ngayGio : String
  /-- Column `Mã KH` (customer code). -/
  maKH : String
  /-- Column `Tên Khách` (customer display name). -/
  tenKhach : String
  /-- Column `Chi Tiết SP (JSON)` via its `json.loads` outcome. -/
  chiTietSP : Option (List LineItem)
  /-- Column `Tổng Thanh Toán` (invoice total). -/
  tongThanhToan : Value
  /-- Column `Hình Thức TT` (payment method). -/
  hinhThucTT : String
deriving DecidableEq

/-- A customer row of the `KHACH_HANG` sheet, restricted to the columns
the statistics and ledger routines read. -/
structure Customer where
  /-- Column `Mã KH` (customer code). -/
  maKH : String
  /-- Column `Tên Khách Hàng` (display name). -/
  tenKhachHang : String
  /-- Column `Số Điện Thoại` (phone, possibly numeric in the sheet). -/
  soDienThoai : Value
  /-- Column `Tổng Chi Tiêu` (cached display-formatted spend total). -/
  tongChiTieu : Value
deriving DecidableEq

/-- A product row of the `SAN_PHAM` sheet (only its presence matters to the
dashboard, which counts catalog size). -/
structure Product where
  maSP : String
  tenSanPham : String
deriving DecidableEq

/-- A result as returned by every public operation:
`{'success': True, 'data': ...}` or `{'success': False, 'message': ...}`. -/
inductive ApiResult (α : Type) where
  | success (data : α)
  | failure (message : String)
deriving DecidableEq

/-- The body of the filtering loop of
`GoogleSheetsAPI._filter_invoices_by_date` (both bounds nonempty):
keep invoices whose normalized date lies in the inclusive range, silently
dropping those whose normalization fails. -/
def filterLoop (date_from date_to : String) : List Invoice → List Invoice
  | [] => []
  | inv :: rest =>
    match parse_invoice_date inv.ngayGio with
    | Option.none => filterLoop date_from date_to rest
    | some d =>
      if pyStrLE date_from d && pyStrLE d date_to then
        inv :: filterLoop date_from date_to rest
      else filterLoop date_from date_to rest

/-- `GoogleSheetsAPI._filter_invoices_by_date`: identity when either bound
is absent or empty, otherwise the filtering loop. -/
def filter_invoices_by_date (invoice_data : List Invoice)
    (date_from date_to : Option String) : List Invoice :=
  match date_from, date_to with
  | some f, some t =>
    if f = "" ∨ t = "" then invoice_data
    else filterLoop f t invoice_data
  | _, _ => invoice_data

/-- The `customer_names_in_period` set of `get_dashboard_stats`, modelled as
a duplicate-free list built in insertion order: each invoice's stripped
`Tên Khách` is added when nonempty and not already present. -/
def periodCustomerNames (invs : List Invoice) : List String :=
  invs.foldl
    (fun acc inv =>
      let n := pyStrip inv.tenKhach
      if n ≠ "" ∧ n ∉ acc then acc ++ [n] else acc)
    []

/-- The data payload assembled by `get_dashboard_stats` before its
debug-info block.  `avg_customer_spent` is the Python true division,
modelled over `ℚ`. -/
structure DashboardData where
  total_revenue : Int
  total_invoices : Nat
  total_customers : Nat
  total_products : Nat
  cash_revenue : Int
  transfer_revenue : Int
  total_customer_spent : Int
  avg_customer_spent : ℚ
deriving DecidableEq

/-- The statistics computation of `GoogleSheetsAPI.get_dashboard_stats`
(the lines between the date filter and the debug-info block), as a pure
function of the fetched rows and the raw date bounds. -/
def dashboard_payload (invoices : List Invoice) (products : List Product)
    (date_from date_to : Option String) : DashboardData :=
  let invoice_data := filter_invoices_by_date invoices date_from date_to
  let total_revenue := (invoice_data.map (fun inv => safe_parse_amount inv.tongThanhToan)).sum
  let total_customers := (periodCustomerNames invoice_data).length
  let cash_revenue :=
    ((invoice_data.filter (fun inv => inv.hinhThucTT = "cash")).map
      (fun inv => safe_parse_amount inv.tongThanhToan)).sum
  let transfer_revenue :=
    ((invoice_data.filter (fun inv => inv.hinhThucTT = "transfer")).map
      (fun inv => safe_parse_amount inv.tongThanhToan)).sum
  let total_customer_spent := total_revenue
  { total_revenue := total_revenue
    total_invoices := invoice_data.length
    total_customers := total_customers
    total_products := products.length
    cash_revenue := cash_revenue
    transfer_revenue := transfer_revenue
    total_customer_spent := total_customer_spent
    avg_customer_spent :=
      if total_customers > 0 then (total_customer_spent : ℚ) / total_customers else 0 }

/-- `GoogleSheetsAPI.get_dashboard_stats`.  The statistics are computed as
in `dashboard_payload`, but before the result dictionary is built the line
`debug_info['customer_codes_in_period'] = list(customer_codes_in_period)`
reads a name that is never assigned (the loop above it fills
`customer_names_in_period` instead); the resulting `NameError` is caught by
the enclosing handler, which turns it into a failure result. -/
def get_dashboard_stats (invoices : List Invoice) (customers : List Customer)
    (products : List Product) (date_from date_to : Option String) :
    ApiResult DashboardData :=
  let _payload := dashboard_payload invoices products date_from date_to
  let _customer_count := customers.length
  ApiResult.failure "name 'customer_codes_in_period' is not defined"

/-- Model of a Python dict update `d[k] = d.get(k, v0) + v` on an
association list with `add` as the combining operation: bump the first
entry with key `k`, or append a fresh entry at the end (dict insertion
order). -/
def bumpAssoc {α : Type} (add : α → α → α) :
    List (String × α) → String → α → List (String × α)
  | [], k, v => [(k, v)]
  | p :: rest, k, v =>
    if p.1 = k then (p.1, add p.2 v) :: rest
    else p :: bumpAssoc add rest k v

/-- The bucket key computed inside the loop of
`GoogleSheetsAPI.get_revenue_stats` for one invoice timestamp:
the part before the first space is split on `'/'` into exactly three
components (otherwise the unpacking raises and the invoice is skipped);
`day` gives `day/month/year`, `week` gives
`Tuần ((day-1)//7+1)/month/year` (a `NameError`/`ValueError` on any other
period or a non-numeric day is swallowed, skipping the invoice), and
`month` gives `month/year`. -/
def revenueBucketKey (period : String) (dateStr : String) : Option String :=
  let datePart := (chSplit ' ' dateStr.data).headD []
  match (chSplit '/' datePart).map String.mk with
  | [day, month, year] =>
    if period = "day" then some (day ++ "/" ++ month ++ "/" ++ year)
    else if period = "week" then
      match pyInt? day with
      | Option.none => Option.none
      | some d =>
        some ("Tuần " ++ toString (Int.fdiv (d - 1) 7 + 1) ++ "/" ++ month ++ "/" ++ year)
    else if period = "month" then some (month ++ "/" ++ year)
    else Option.none
  | _ => Option.none

/-- The `revenue_by_period` accumulation loop of `get_revenue_stats`,
threaded through an explicit accumulator: invoices with an empty timestamp
are skipped, a failed key computation is skipped, and otherwise the parsed
total is added to the key's bucket. -/
def revenueFoldFrom (period : String) : List (String × Int) → List Invoice → List (String × Int)
  | acc, [] => acc
  | acc, inv :: rest =>
    revenueFoldFrom period
      (if inv.ngayGio = "" then acc
       else
         match revenueBucketKey period inv.ngayGio with
         | Option.none => acc
         | some k => bumpAssoc (· + ·) acc k (safe_parse_amount inv.tongThanhToan))
      rest

/-- The `revenue_by_period` dict of `get_revenue_stats`, starting empty. -/
def revenueFold (period : String) (invs : List Invoice) : List (String × Int) :=
  revenueFoldFrom period [] invs

/-- `GoogleSheetsAPI.get_revenue_stats`: filter by date, bucket by period,
and sort the `(period, revenue)` pairs ascending by bucket key. -/
def get_revenue_stats (invoices : List Invoice) (period : String)
    (date_from date_to : Option String) : ApiResult (List (String × Int)) :=
  let invoice_data := filter_invoices_by_date invoices date_from date_to
  let pairs := revenueFold period invoice_data
  ApiResult.success (pairs.insertionSort (fun a b => pyStrLE a.1 b.1 = true))

/-- The per-invoice accumulation of `get_product_stats`: line items of one
parsed invoice are folded into the `product_stats` dict, combining
`(quantity, revenue)` pairs pointwise. -/
def productItemsFold : List (String × Int × Int) → List LineItem → List (String × Int × Int)
  | acc, [] => acc
  | acc, it :: rest =>
    productItemsFold
      (bumpAssoc (fun p q => (p.1 + q.1, p.2 + q.2)) acc it.name
        (it.quantity, safe_parse_amount it.total))
      rest

/-- The `product_stats` dict of `get_product_stats` over a list of
invoices, threaded through an explicit accumulator: an invoice whose
line-item JSON failed to parse (`chiTietSP = none`) contributes nothing. -/
def productFoldFrom : List (String × Int × Int) → List Invoice → List (String × Int × Int)
  | acc, [] => acc
  | acc, inv :: rest =>
    productFoldFrom
      (match inv.chiTietSP with
       | Option.none => acc
       | some items => productItemsFold acc items)
      rest

/-- The `product_stats` dict of `get_product_stats`, starting empty. -/
def productStatsFold (invs : List Invoice) : List (String × Int × Int) :=
  productFoldFrom [] invs

/-- `GoogleSheetsAPI.get_product_stats`: filter by date, accumulate
`(name, (quantity, revenue))` per product name, sort by revenue descending
and keep the top 10. -/
def get_product_stats (invoices : List Invoice)
    (date_from date_to : Option String) : ApiResult (List (String × Int × Int)) :=
  let invoice_data := filter_invoices_by_date invoices date_from date_to
  let stats := productStatsFold invoice_data
  ApiResult.success
    ((stats.insertionSort (fun a b => b.2.2 ≤ a.2.2)).take 10)

/-- One entry of the `customer_stats` list of `get_customer_stats`:
code, name, re-summed total spent, and invoice count. -/
structure CustomerStat where
  code : String
  name : String
  total_spent : Int
  invoice_count : Nat
deriving DecidableEq

/-- `GoogleSheetsAPI.get_customer_stats`: for every customer record, re-sum
the filtered invoices whose `Mã KH` equals the customer's code (the cached
`Tổng Chi Tiêu` field is never read), keep only customers with at least one
matching invoice, and sort by total spent descending. -/
def get_customer_stats (customers : List Customer) (invoices : List Invoice)
    (date_from date_to : Option String) : ApiResult (List CustomerStat) :=
  let invoice_data := filter_invoices_by_date invoices date_from date_to
  let stats := customers.filterMap
    (fun c =>
      let customer_invoices := invoice_data.filter (fun inv => inv.maKH = c.maKH)
      let total_spent :=
        (customer_invoices.map (fun inv => safe_parse_amount inv.tongThanhToan)).sum
      if customer_invoices.length > 0 then
        some { code := c.maKH, name := c.tenKhachHang, total_spent := total_spent,
               invoice_count := customer_invoices.length }
      else Option.none)
  ApiResult.success
    (stats.insertionSort (fun a b => b.total_spent ≤ a.total_spent))

/-- Remove every (left-to-right, non-overlapping) occurrence of the
two-character sequence `a b` from a character list (model of Python
`str.replace(ab, '')` for a two-character pattern). -/
def removeSp2 (a b : Char) : List Char → List Char
  | [] => []
  | [x] => [x]
  | x :: y :: rest =>
    if x = a ∧ y = b then removeSp2 a b rest
    else x :: removeSp2 a b (y :: rest)

/-- The apostrophe character that `update_customer_spent` strips from
stored phone numbers (sheet cells are quoted to force text format). -/
def apos : Char := Char.ofNat 39

/-- The normalization `update_customer_spent` applies to a stored phone:
falsy cells give `''`, otherwise `str(...)` with every space and
apostrophe removed. -/
def normStoredPhone (v : Value) : String :=
  if pyTruthy v then String.mk (((pyStr v).data.filter (· ≠ ' ')).filter (· ≠ apos))
  else ""

/-- The normalization `update_customer_spent` applies to the search phone:
`str(...)` with every space removed. -/
def normSearchPhone (v : Value) : String :=
  String.mk ((pyStr v).data.filter (· ≠ ' '))

/-- The parse `update_customer_spent` applies to the cached
`Tổng Chi Tiêu` cell: a string is stripped of every `' đ'` and `','` and
read with `int(...)` when it is all digits (else `0`); an integer cell is
used as is; `none` (whose addition would raise) yields `Option.none`. -/
def parseSpentValue : Value → Option Int
  | Value.str s =>
    let t := (removeSp2 ' ' 'đ' s.data).filter (· ≠ ',')
    some (if isDigitsCh t then (digitsToNat t : Nat) else 0)
  | Value.int n => some n
  | Value.none => Option.none

/-- The coercion `update_customer_spent` applies to the new amount:
a string is read with `int(...)` when it is all digits (else `0`); an
integer is kept; `none` (whose addition would raise) yields `Option.none`. -/
def coerceAmount : Value → Option Int
  | Value.str s => some (if pyIsdigit s then (digitsToNat s.data : Nat) else 0)
  | Value.int n => some n
  | Value.none => Option.none

/-- Insert a `','` after every three characters of a reversed digit list
(helper for the thousands grouping of Python `f"{n:,}"`). -/
def groupRev : List Char → List Char
  | a :: b :: c :: d :: rest => a :: b :: c :: ',' :: groupRev (d :: rest)
  | l => l

/-- Thousands grouping of a natural number, as Python `f"{n:,}"`. -/
def commaGroupNat (n : Nat) : String :=
  String.mk (groupRev (toString n).data.reverse).reverse

/-- The display format `update_customer_spent` writes back:
`f"{new_spent:,} đ"`. -/
def formatMoney (n : Int) : String :=
  if n < 0 then "-" ++ commaGroupNat n.natAbs ++ " đ"
  else commaGroupNat n.toNat ++ " đ"

/-- `GoogleSheetsAPI.update_customer_spent`: walk the customer rows in
order; at the first row whose normalized stored phone equals the
normalized search phone, overwrite the cached total with the formatted sum
of the parsed old total and the coerced amount, and stop.  If the addition
would raise (`None` operand), the exception handler leaves every row
unchanged; if no row matches, the loop's `else` branch only logs. -/
def update_customer_spent : List Customer → Value → Value → List Customer
  | [], _, _ => []
  | c :: rest, phone, amount =>
    if normStoredPhone c.soDienThoai = normSearchPhone phone then
      match parseSpentValue c.tongChiTieu, coerceAmount amount with
      | some current, some amt =>
        { c with tongChiTieu := Value.str (formatMoney (current + amt)) } :: rest
      | _, _ => c :: rest
    else c :: update_customer_spent rest phone amount

/-- Modelled from the spec's words, for the refinement check of the
distinct-customer statistic: "count of distinct non-empty customer
identifiers appearing in the filtered set (keyed ... by code)". -/
def spec_distinct_customer_codes (invs : List Invoice) : Nat :=
  ((invs.map (fun i => i.maKH)).filter (fun s => s ≠ "")).toFinset.card

/-- The total value an association list carries at key `k` (summing over
every entry with that key, so it is permutation-invariant). -/
def keyTotal (l : List (String × Int)) (k : String) : Int :=
  ((l.filter (fun p => p.1 = k)).map (fun p => p.2)).sum

/-- The revenue belonging in bucket `k`: the summed parsed totals of the
invoices with a nonempty timestamp whose bucket key computes to `k`. -/
def bucketTotal (period : String) (invs : List Invoice) (k : String) : Int :=
  ((invs.filter
      (fun inv => inv.ngayGio ≠ "" ∧ revenueBucketKey period inv.ngayGio = some k)).map
    (fun inv => safe_parse_amount inv.tongThanhToan)).sum

/-- Sum of a projection of the values carried at key `k` in an
association list. -/
def sumAt {α : Type} (f : α → Int) (l : List (String × α)) (k : String) : Int :=
  ((l.filter (fun p => p.1 = k)).map (fun p => f p.2)).sum

/-- The line items `get_product_stats` reads from an invoice: the parsed
array, or nothing when the JSON failed to parse. -/
def itemsOf (inv : Invoice) : List LineItem :=
  inv.chiTietSP.getD []

/-- Total quantity of product `name` in a list of line items. -/
def itemQtyTotal (items : List LineItem) (name : String) : Int :=
  ((items.filter (fun it => it.name = name)).map (fun it => it.quantity)).sum

/-- Total parsed revenue of product `name` in a list of line items. -/
def itemRevTotal (items : List LineItem) (name : String) : Int :=
  ((items.filter (fun it => it.name = name)).map
    (fun it => safe_parse_amount it.total)).sum

/-- Total quantity of product `name` across the parsed line items of an
invoice list. -/
def invQtyTotal (invs : List Invoice) (name : String) : Int :=
  (invs.map (fun inv => itemQtyTotal (itemsOf inv) name)).sum

/-- Total parsed revenue of product `name` across the parsed line items
of an invoice list. -/
def invRevTotal (invs : List Invoice) (name : String) : Int :=
  (invs.map (fun inv => itemRevTotal (itemsOf inv) name)).sum

/-! ## Theorems -/

/-- Dropping while a predicate is everywhere false is the identity. -/
theorem dropWhile_eq_self_all (p : Char → Bool) (l : List Char)
    (h : ∀ c ∈ l, p c = false) : l.dropWhile p = l := by
  cases l with
  | nil => rfl
  | cons a t => simp [List.dropWhile_cons, h a (List.mem_cons_self a t)]

/-- Stripping a list with no whitespace anywhere is the identity. -/
theorem trimCh_eq_self {l : List Char} (h : ∀ c ∈ l, c.isWhitespace = false) :
    trimCh l = l := by
  unfold trimCh
  rw [dropWhile_eq_self_all _ _ h]
  rw [dropWhile_eq_self_all _ _ (fun c hc => h c (List.mem_reverse.mp hc))]
  exact l.reverse_reverse

/-- Stripping `dl ++ ' ' :: tl` is the identity when both ends are
whitespace-free and nonempty. -/
theorem trimCh_append_tail {dl tl : List Char}
    (hd : ∀ c ∈ dl, c.isWhitespace = false) (hdn : dl ≠ [])
    (ht : ∀ c ∈ tl, c.isWhitespace = false) (htn : tl ≠ []) :
    trimCh (dl ++ ' ' :: tl) = dl ++ ' ' :: tl := by
  unfold trimCh
  have h1 : (dl ++ ' ' :: tl).dropWhile Char.isWhitespace = dl ++ ' ' :: tl := by
    cases dl with
    | nil => exact absurd rfl hdn
    | cons a t =>
      simp [List.dropWhile_cons, hd a (List.mem_cons_self a t)]
  rw [h1]
  have h2 : (dl ++ ' ' :: tl).reverse = tl.reverse ++ ' ' :: dl.reverse := by
    simp
  rw [h2]
  have h3 : (tl.reverse ++ ' ' :: dl.reverse).dropWhile Char.isWhitespace
      = tl.reverse ++ ' ' :: dl.reverse := by
    cases hr : tl.reverse with
    | nil => exact absurd (List.reverse_eq_nil_iff.mp hr) htn
    | cons b rb =>
      have hb : b ∈ tl := by
        have hm : b ∈ tl.reverse := by
          rw [hr]; exact List.mem_cons_self b rb
        exact List.mem_reverse.mp hm
      simp [List.dropWhile_cons, ht b hb]
  rw [h3, ← h2, List.reverse_reverse]

/-- Splitting a list that does not contain the separator yields a single
piece. -/
theorem chSplit_of_not_mem {sep : Char} {l : List Char} (h : sep ∉ l) :
    chSplit sep l = [l] := by
  induction l with
  | nil => rfl
  | cons c t ih =>
    have hc : ¬(c = sep) := fun e => h (e ▸ List.mem_cons_self c t)
    have ht : sep ∉ t := fun m => h (List.mem_cons_of_mem c m)
    simp [chSplit, hc, ih ht]

/-- Splitting `l ++ sep :: r` when `l` is separator-free peels off `l`. -/
theorem chSplit_append {sep : Char} {l r : List Char} (h : sep ∉ l) :
    chSplit sep (l ++ sep :: r) = l :: chSplit sep r := by
  induction l with
  | nil => simp [chSplit]
  | cons c t ih =>
    have hc : ¬(c = sep) := fun e => h (e ▸ List.mem_cons_self c t)
    have ht : sep ∉ t := fun m => h (List.mem_cons_of_mem c m)
    simp [chSplit, hc, ih ht]

/-- An ASCII digit is not whitespace. -/
theorem isDigit_not_ws {c : Char} (h : c.isDigit = true) : c.isWhitespace = false := by
  by_contra hw
  have hw' : c.isWhitespace = true := by
    cases hws : c.isWhitespace
    · exact absurd hws hw
    · rfl
  have hcases : c = ' ' ∨ c = '\t' ∨ c = '\r' ∨ c = '\n' := by
    simpa [Char.isWhitespace, or_assoc] using hw'
  rcases hcases with rfl | rfl | rfl | rfl <;> exact absurd h (by decide)

/-- An ASCII digit is not the space character. -/
theorem isDigit_ne_space {c : Char} (h : c.isDigit = true) : ¬(c = ' ') := by
  intro e; subst e; exact absurd h (by decide)

/-- An ASCII digit is not a slash. -/
theorem isDigit_ne_slash {c : Char} (h : c.isDigit = true) : ¬(c = '/') := by
  intro e; subst e; exact absurd h (by decide)

/-- An ASCII digit is not a sign character. -/
theorem isDigit_ne_sign {c : Char} (h : c.isDigit = true) : ¬(c = '-' ∨ c = '+') := by
  rintro (e | e) <;> (subst e; exact absurd h (by decide))

/-- `isDigitsCh` unpacked. -/
theorem isDigitsCh_iff {l : List Char} :
    isDigitsCh l = true ↔ l ≠ [] ∧ ∀ c ∈ l, c.isDigit = true := by
  simp [isDigitsCh, List.all_eq_true, List.isEmpty_iff]

/-- A leading zero does not change the numeric value of a digit list. -/
theorem digitsToNat_cons_zero (l : List Char) :
    digitsToNat ('0' :: l) = digitsToNat l := rfl

/-- Left-padding with zeros does not change the numeric value. -/
theorem digitsToNat_replicate (n : Nat) (l : List Char) :
    digitsToNat (List.replicate n '0' ++ l) = digitsToNat l := by
  induction n with
  | zero => rfl
  | succ k ih => rw [List.replicate_succ, List.cons_append, digitsToNat_cons_zero, ih]

/-- Left-padding a digit list with zeros keeps it a digit list. -/
theorem isDigitsCh_replicate_append {l : List Char} (n : Nat)
    (h : isDigitsCh l = true) : isDigitsCh (List.replicate n '0' ++ l) = true := by
  rcases isDigitsCh_iff.mp h with ⟨hne, hall⟩
  refine isDigitsCh_iff.mpr ⟨by simp [hne], ?_⟩
  intro c hc
  rcases List.mem_append.mp hc with hc | hc
  · rw [List.eq_of_mem_replicate hc]; decide
  · exact hall c hc

/-- `zfill` on a digit list is plain left-padding with zeros. -/
theorem zfillCh_digits {l : List Char} (h : isDigitsCh l = true) (w : Nat) :
    zfillCh w l = List.replicate (w - l.length) '0' ++ l := by
  unfold zfillCh
  by_cases hw : w ≤ l.length
  · simp [hw, Nat.sub_eq_zero_of_le hw]
  · simp only [hw, if_false]
    cases l with
    | nil => exact absurd h (by decide)
    | cons c t =>
      have hc : c.isDigit = true :=
        (isDigitsCh_iff.mp h).2 c (List.mem_cons_self c t)
      simp [isDigit_ne_sign hc]

/-- Python `int(...)` on a string of digits returns their value. -/
theorem pyInt?_of_digits {l : List Char} (h : isDigitsCh l = true) :
    pyInt? (String.mk l) = some ((digitsToNat l : Nat) : Int) := by
  have htrim : trimCh l = l :=
    trimCh_eq_self (fun c hc => isDigit_not_ws ((isDigitsCh_iff.mp h).2 c hc))
  simp [pyInt?, htrim, h]

/-- Python `int(...)` after `zfill` on a digit string returns the
original value. -/
theorem pyInt?_zfill_digits {s : String} (h : pyIsdigit s = true) (w : Nat) :
    pyInt? (zfill w s) = some ((digitsToNat s.data : Nat) : Int) := by
  unfold zfill
  rw [zfillCh_digits h w, pyInt?_of_digits (isDigitsCh_replicate_append _ h),
    digitsToNat_replicate]

/-- `zfill` is the identity on strings at least as long as the width. -/
theorem zfill_of_length_le {s : String} {w : Nat} (h : w ≤ s.length) :
    zfill w s = s := by
  have h' : w ≤ s.data.length := h
  unfold zfill zfillCh
  rw [if_pos h']

/-- String append acts as list append on the underlying data. -/
theorem string_data_append (a b : String) : (a ++ b).data = a.data ++ b.data := rfl

/-- Rebuilding a string from its data is the identity. -/
theorem string_mk_data (s : String) : String.mk s.data = s := rfl

/-- The underlying data of `d ++ "/" ++ m ++ "/" ++ y`. -/
theorem data_dmY (d m y : String) :
    (d ++ "/" ++ m ++ "/" ++ y).data = d.data ++ '/' :: (m.data ++ '/' :: y.data) := by
  have hs : ("/" : String).data = ['/'] := rfl
  simp [string_data_append, hs, List.append_assoc]

/-- A digit list contains no slash. -/
theorem digits_no_slash {l : List Char} (h : isDigitsCh l = true) : '/' ∉ l := by
  intro hm
  exact isDigit_ne_slash ((isDigitsCh_iff.mp h).2 _ hm) rfl

/-- A digit list contains no space. -/
theorem digits_no_space {l : List Char} (h : isDigitsCh l = true) : ' ' ∉ l := by
  intro hm
  exact isDigit_ne_space ((isDigitsCh_iff.mp h).2 _ hm) rfl

/-- Every character of the list underlying `d ++ "/" ++ m ++ "/" ++ y`
is a digit or a slash. -/
theorem dmY_chars {d m y : String} (hd : pyIsdigit d = true)
    (hm : pyIsdigit m = true) (hy : pyIsdigit y = true) :
    ∀ c ∈ d.data ++ '/' :: (m.data ++ '/' :: y.data), c.isDigit = true ∨ c = '/' := by
  intro c hc
  rcases List.mem_append.mp hc with h1 | h1
  · exact Or.inl ((isDigitsCh_iff.mp hd).2 c h1)
  · rcases List.mem_cons.mp h1 with rfl | h1
    · exact Or.inr rfl
    · rcases List.mem_append.mp h1 with h2 | h2
      · exact Or.inl ((isDigitsCh_iff.mp hm).2 c h2)
      · rcases List.mem_cons.mp h2 with rfl | h2
        · exact Or.inr rfl
        · exact Or.inl ((isDigitsCh_iff.mp hy).2 c h2)

/-- The list underlying `d ++ "/" ++ m ++ "/" ++ y` is whitespace-free. -/
theorem dmY_no_ws {d m y : String} (hd : pyIsdigit d = true)
    (hm : pyIsdigit m = true) (hy : pyIsdigit y = true) :
    ∀ c ∈ d.data ++ '/' :: (m.data ++ '/' :: y.data), c.isWhitespace = false := by
  intro c hc
  rcases dmY_chars hd hm hy c hc with h | rfl
  · exact isDigit_not_ws h
  · decide

/-- The list underlying `d ++ "/" ++ m ++ "/" ++ y` contains no space. -/
theorem dmY_no_space {d m y : String} (hd : pyIsdigit d = true)
    (hm : pyIsdigit m = true) (hy : pyIsdigit y = true) :
    ' ' ∉ d.data ++ '/' :: (m.data ++ '/' :: y.data) := by
  intro hc
  rcases dmY_chars hd hm hy ' ' hc with h | h
  · exact absurd h (by decide)
  · exact absurd h (by decide)

/-- Splitting the separator-free all-digit pieces back out of
`d ++ "/" ++ m ++ "/" ++ y`. -/
theorem chSplit_dmY {d m y : String} (hd : pyIsdigit d = true)
    (hm : pyIsdigit m = true) (hy : pyIsdigit y = true) :
    chSplit '/' (d.data ++ '/' :: (m.data ++ '/' :: y.data))
      = [d.data, m.data, y.data] := by
  rw [chSplit_append (digits_no_slash hd), chSplit_append (digits_no_slash hm),
    chSplit_of_not_mem (digits_no_slash hy)]

/-- `dateComponents` on a well-formed `D/M/Y` string with no time part. -/
theorem dateComponents_valid {d m y : String} (hd : pyIsdigit d = true)
    (hm : pyIsdigit m = true) (hy : pyIsdigit y = true) :
    dateComponents (d ++ "/" ++ m ++ "/" ++ y) = [d, m, y] := by
  unfold dateComponents
  rw [data_dmY]
  simp only [trimCh_eq_self (dmY_no_ws hd hm hy),
    chSplit_of_not_mem (dmY_no_space hd hm hy), List.headD_cons,
    chSplit_dmY hd hm hy, List.map_cons, List.map_nil, string_mk_data]

/-- `dateComponents` on a well-formed `D/M/Y` string followed by a space
and a nonempty whitespace-free time part. -/
theorem dateComponents_valid_time {d m y t : String} (hd : pyIsdigit d = true)
    (hm : pyIsdigit m = true) (hy : pyIsdigit y = true)
    (htn : t ≠ "") (htw : ∀ c ∈ t.data, c.isWhitespace = false) :
    dateComponents (d ++ "/" ++ m ++ "/" ++ y ++ " " ++ t) = [d, m, y] := by
  unfold dateComponents
  have hdata : (d ++ "/" ++ m ++ "/" ++ y ++ " " ++ t).data
      = (d.data ++ '/' :: (m.data ++ '/' :: y.data)) ++ ' ' :: t.data := by
    have hsp : (" " : String).data = [' '] := rfl
    have h1 : (d ++ "/" ++ m ++ "/" ++ y ++ " " ++ t).data
        = (d ++ "/" ++ m ++ "/" ++ y).data ++ [' '] ++ t.data := by
      simp [string_data_append, hsp]
    rw [h1, data_dmY]
    simp [List.append_assoc]
  rw [hdata]
  have hdn : d.data ++ '/' :: (m.data ++ '/' :: y.data) ≠ [] := by
    simp
  have htne : t.data ≠ [] := by
    intro hnil
    exact htn (by rw [← string_mk_data t, hnil])
  simp only [trimCh_append_tail (dmY_no_ws hd hm hy) hdn htw htne,
    chSplit_append (dmY_no_space hd hm hy), List.headD_cons,
    chSplit_dmY hd hm hy, List.map_cons, List.map_nil, string_mk_data]

/-- The normalizer on any input whose components are a valid day, month
and 4-digit year: it returns the zero-padded canonical date key. -/
theorem parse_from_components {s d m y : String}
    (hdc : dateComponents s = [d, m, y]) (hs : s ≠ "")
    (hd : pyIsdigit d = true) (hdv : digitsToNat d.data ≤ 31)
    (hm : pyIsdigit m = true) (hmv : digitsToNat m.data ≤ 12)
    (hy4 : y.length = 4) :
    parse_invoice_date s = some (y ++ "-" ++ zfill 2 m ++ "-" ++ zfill 2 d) := by
  have hz4 : zfill 4 y = y := zfill_of_length_le (by rw [hy4])
  have hmz := pyInt?_zfill_digits hm 2
  have hdz := pyInt?_zfill_digits hd 2
  have hm12 : ¬((digitsToNat m.data : Nat) : Int) > 12 := by
    omega
  have hd31 : ¬((digitsToNat d.data : Nat) : Int) > 31 := by
    omega
  unfold parse_invoice_date
  rw [if_neg hs, hdc]
  simp [parse_with_components, hz4, hy4, hmz, hdz, hm12, hd31]

/-- C6: for every valid `DD/MM/YYYY` input (day and month of at most two
digits with values at most 31 and 12, a 4-digit year), optionally followed
by a space and a whitespace-free time component, `_parse_invoice_date`
returns the zero-padded `YYYY-MM-DD` key; it returns `none` on the empty
string, when the input does not split into exactly 3 date components, when
the padded year is not exactly 4 characters, when the month or day fails
to parse as an integer (the caught-exception path), when the month value
exceeds 12, and when the day value exceeds 31. -/
theorem C6_parse_invoice_date :
    parse_invoice_date "" = Option.none ∧
    (∀ d m y : String, pyIsdigit d = true → d.length ≤ 2 → digitsToNat d.data ≤ 31 →
      pyIsdigit m = true → m.length ≤ 2 → digitsToNat m.data ≤ 12 →
      pyIsdigit y = true → y.length = 4 →
      parse_invoice_date (d ++ "/" ++ m ++ "/" ++ y)
          = some (y ++ "-" ++ zfill 2 m ++ "-" ++ zfill 2 d) ∧
      ∀ t : String, t ≠ "" → (∀ c ∈ t.data, c.isWhitespace = false) →
        parse_invoice_date (d ++ "/" ++ m ++ "/" ++ y ++ " " ++ t)
          = some (y ++ "-" ++ zfill 2 m ++ "-" ++ zfill 2 d)) ∧
    (∀ s : String, (dateComponents s).length ≠ 3 →
      parse_invoice_date s = Option.none) ∧
    (∀ s d m y : String, dateComponents s = [d, m, y] →
      (zfill 4 y).length ≠ 4 → parse_invoice_date s = Option.none) ∧
    (∀ s d m y : String, dateComponents s = [d, m, y] →
      pyInt? (zfill 2 m) = Option.none → parse_invoice_date s = Option.none) ∧
    (∀ s d m y : String, dateComponents s = [d, m, y] → ∀ mv : Int,
      pyInt? (zfill 2 m) = some mv → mv > 12 → parse_invoice_date s = Option.none) ∧
    (∀ s d m y : String, dateComponents s = [d, m, y] →
      pyInt? (zfill 2 d) = Option.none → parse_invoice_date s = Option.none) ∧
    (∀ s d m y : String, dateComponents s = [d, m, y] → ∀ dv : Int,
      pyInt? (zfill 2 d) = some dv → dv > 31 → parse_invoice_date s = Option.none) := by
  have hne : ∀ d m y : String, pyIsdigit d = true → (d ++ "/" ++ m ++ "/" ++ y) ≠ "" := by
    intro d m y hd he
    have hdata := congrArg String.data he
    rw [data_dmY] at hdata
    rcases isDigitsCh_iff.mp hd with ⟨hdne, _⟩
    cases hcd : d.data with
    | nil => exact hdne hcd
    | cons a t => rw [hcd] at hdata; exact List.noConfusion hdata
  refine ⟨by decide, ?_, ?_, ?_, ?_, ?_, ?_, ?_⟩
  · intro d m y hd hd2 hdv hm hm2 hmv hy hy4
    constructor
    · exact parse_from_components (dateComponents_valid hd hm hy)
        (hne d m y hd) hd hdv hm hmv hy4
    · intro t htn htw
      have hne2 : (d ++ "/" ++ m ++ "/" ++ y ++ " " ++ t) ≠ "" := by
        intro he
        have hdata := congrArg String.data he
        have h1 : (d ++ "/" ++ m ++ "/" ++ y ++ " " ++ t).data
            = (d ++ "/" ++ m ++ "/" ++ y).data ++ [' '] ++ t.data := by
          have hsp : (" " : String).data = [' '] := rfl
          simp [string_data_append, hsp]
        rw [h1, data_dmY] at hdata
        rcases isDigitsCh_iff.mp hd with ⟨hdne, _⟩
        cases hcd : d.data with
        | nil => exact hdne hcd
        | cons a u => rw [hcd] at hdata; exact List.noConfusion hdata
      exact parse_from_components (dateComponents_valid_time hd hm hy htn htw)
        hne2 hd hdv hm hmv hy4
  · intro s h3
    by_cases hs : s = ""
    · simp [parse_invoice_date, hs]
    · rw [parse_invoice_date, if_neg hs]
      rcases hdc : dateComponents s with _ | ⟨a, _ | ⟨b, _ | ⟨c, _ | _⟩⟩⟩ <;>
        first
          | rfl
          | (exact absurd (by simp [hdc]) h3)
  · intro s d m y hdc hy4
    by_cases hs : s = ""
    · simp [parse_invoice_date, hs]
    · rw [parse_invoice_date, if_neg hs, hdc]
      simp [parse_with_components, hy4]
  · intro s d m y hdc hmn
    by_cases hs : s = ""
    · simp [parse_invoice_date, hs]
    · rw [parse_invoice_date, if_neg hs, hdc]
      by_cases hy4 : (zfill 4 y).length = 4
      · simp [parse_with_components, hy4, hmn]
      · simp [parse_with_components, hy4]
  · intro s d m y hdc mv hmv hgt
    by_cases hs : s = ""
    · simp [parse_invoice_date, hs]
    · rw [parse_invoice_date, if_neg hs, hdc]
      by_cases hy4 : (zfill 4 y).length = 4
      · simp [parse_with_components, hy4, hmv, hgt]
      · simp [parse_with_components, hy4]
  · intro s d m y hdc hdn
    by_cases hs : s = ""
    · simp [parse_invoice_date, hs]
    · rw [parse_invoice_date, if_neg hs, hdc]
      by_cases hy4 : (zfill 4 y).length = 4
      · cases hmv : pyInt? (zfill 2 m) with
        | none => simp [parse_with_components, hy4, hmv]
        | some mv =>
          by_cases hgt : mv > 12
          · simp [parse_with_components, hy4, hmv, hgt]
          · simp [parse_with_components, hy4, hmv, hgt, hdn]
      · simp [parse_with_components, hy4]
  · intro s d m y hdc dv hdv hgt
    by_cases hs : s = ""
    · simp [parse_invoice_date, hs]
    · rw [parse_invoice_date, if_neg hs, hdc]
      by_cases hy4 : (zfill 4 y).length = 4
      · cases hmv : pyInt? (zfill 2 m) with
        | none => simp [parse_with_components, hy4, hmv]
        | some mv =>
          by_cases hmgt : mv > 12
          · simp [parse_with_components, hy4, hmv, hmgt]
          · simp [parse_with_components, hy4, hmv, hmgt, hdv, hgt]
      · simp [parse_with_components, hy4]

/-- Witness for `C6_parse_invoice_date`: every conditional conjunct
applied at concrete strings. -/
theorem C6_parse_invoice_date_witness :
    parse_invoice_date "5/3/2024" = some "2024-03-05" ∧
    parse_invoice_date "5/3/2024 10:30" = some "2024-03-05" ∧
    parse_invoice_date "1/2" = Option.none ∧
    parse_invoice_date "1/2/20245" = Option.none ∧
    parse_invoice_date "1/x/2024" = Option.none ∧
    parse_invoice_date "1/13/2024" = Option.none ∧
    parse_invoice_date "x/1/2024" = Option.none ∧
    parse_invoice_date "32/1/2024" = Option.none := by
  have hv := C6_parse_invoice_date.2.1 "5" "3" "2024" (by decide) (by decide)
    (by decide) (by decide) (by decide) (by decide) (by decide) (by decide)
  refine ⟨hv.1, ?_, ?_, ?_, ?_, ?_, ?_, ?_⟩
  · exact hv.2 "10:30" (by decide) (by decide)
  · exact C6_parse_invoice_date.2.2.1 "1/2" (by decide)
  · exact C6_parse_invoice_date.2.2.2.1 "1/2/20245" "1" "2" "20245" (by decide) (by decide)
  · exact C6_parse_invoice_date.2.2.2.2.1 "1/x/2024" "1" "x" "2024" (by decide) (by decide)
  · exact C6_parse_invoice_date.2.2.2.2.2.1 "1/13/2024" "1" "13" "2024" (by decide) 13
      (by decide) (by decide)
  · exact C6_parse_invoice_date.2.2.2.2.2.2.1 "x/1/2024" "x" "1" "2024" (by decide) (by decide)
  · exact C6_parse_invoice_date.2.2.2.2.2.2.2 "32/1/2024" "32" "1" "2024" (by decide) 32
      (by decide) (by decide)

/-- C7: `_safe_parse_amount` satisfies the four specified evaluations;
it returns `0` for falsy (absent/empty/zero) input; for truthy input it
strips whitespace and the `đ`, `,`, `.` characters and parses the
remainder; and it returns `0` on any parse failure (it is a total
function, so it never raises). -/
theorem C7_safe_parse_amount :
    safe_parse_amount (Value.str "1,234,567 đ") = 1234567 ∧
    safe_parse_amount (Value.str "") = 0 ∧
    safe_parse_amount Value.none = 0 ∧
    safe_parse_amount (Value.int 500) = 500 ∧
    (∀ v : Value, pyTruthy v = false → safe_parse_amount v = 0) ∧
    (∀ v : Value, pyTruthy v = true →
      safe_parse_amount v = (pyInt? (cleanAmount (pyStr v))).getD 0) ∧
    (∀ v : Value, pyInt? (cleanAmount (pyStr v)) = Option.none →
      safe_parse_amount v = 0) := by
  refine ⟨by decide, by decide, by decide, by decide, ?_, ?_, ?_⟩
  · intro v h
    simp [safe_parse_amount, h]
  · intro v h
    simp only [safe_parse_amount, h, Bool.true_eq_false, if_false]
    split
    · next heq => rw [heq]; rfl
    · rfl
  · intro v h
    by_cases ht : pyTruthy v
    · simp [safe_parse_amount, ht, h]
    · simp [safe_parse_amount, Bool.eq_false_iff.mpr ht]

/-- Witness for `C7_safe_parse_amount`: its conditional parts applied at
concrete inputs. -/
theorem C7_safe_parse_amount_witness :
    safe_parse_amount (Value.int 0) = 0 ∧
    safe_parse_amount (Value.str "12x") = 0 ∧
    safe_parse_amount (Value.str "99") = (pyInt? (cleanAmount (pyStr (Value.str "99")))).getD 0 :=
  ⟨C7_safe_parse_amount.2.2.2.2.1 (Value.int 0) (by decide),
   C7_safe_parse_amount.2.2.2.2.2.2 (Value.str "12x") (by decide),
   C7_safe_parse_amount.2.2.2.2.2.1 (Value.str "99") (by decide)⟩

/-- The filtering loop equals `List.filter` with the "normalizes and lies
in the inclusive range" predicate. -/
theorem filterLoop_eq_filter (f t : String) (l : List Invoice) :
    filterLoop f t l =
      l.filter (fun r =>
        match parse_invoice_date r.ngayGio with
        | Option.none => false
        | some d => pyStrLE f d && pyStrLE d t) := by
  induction l with
  | nil => rfl
  | cons inv rest ih =>
    simp only [filterLoop, List.filter_cons]
    cases h : parse_invoice_date inv.ngayGio with
    | none => simp [h, ih]
    | some d =>
      by_cases hc : (pyStrLE f d && pyStrLE d t) = true
      · simp [h, hc, ih]
      · simp [h, hc, ih]

/-- C5: `_filter_invoices_by_date` is the identity whenever either bound
is absent or empty; otherwise it keeps exactly the records whose
normalized timestamp lies in the inclusive range under lexicographic
string comparison, silently dropping records whose normalization fails. -/
theorem C5_filter_by_date (records : List Invoice) :
    (∀ dt, filter_invoices_by_date records Option.none dt = records) ∧
    (∀ df, filter_invoices_by_date records df Option.none = records) ∧
    (∀ dt, filter_invoices_by_date records (some "") dt = records) ∧
    (∀ df, filter_invoices_by_date records df (some "") = records) ∧
    (∀ f t, f ≠ "" → t ≠ "" →
      filter_invoices_by_date records (some f) (some t) =
        records.filter (fun r =>
          match parse_invoice_date r.ngayGio with
          | Option.none => false
          | some d => pyStrLE f d && pyStrLE d t)) := by
  refine ⟨?_, ?_, ?_, ?_, ?_⟩
  · intro dt; cases dt <;> rfl
  · intro df; cases df <;> rfl
  · intro dt; cases dt <;> simp [filter_invoices_by_date]
  · intro df; cases df <;> simp [filter_invoices_by_date]
  · intro f t hf ht
    simp [filter_invoices_by_date, hf, ht, filterLoop_eq_filter]

/-- Witness for `C5_filter_by_date`: the bounded branch applied at a
concrete record list and bounds (the record dated `15/01/2024` is kept,
the one dated `05/02/2024` is dropped, the unparsable one is dropped). -/
theorem C5_filter_by_date_witness :
    filter_invoices_by_date
        [{ ngayGio := "15/01/2024 09:00", maKH := "KH1", tenKhach := "An",
           chiTietSP := some [], tongThanhToan := Value.int 100, hinhThucTT := "cash" },
         { ngayGio := "05/02/2024 09:00", maKH := "KH2", tenKhach := "Ba",
           chiTietSP := some [], tongThanhToan := Value.int 200, hinhThucTT := "cash" },
         { ngayGio := "garbage", maKH := "KH3", tenKhach := "Ca",
           chiTietSP := some [], tongThanhToan := Value.int 300, hinhThucTT := "cash" }]
        (some "2024-01-01") (some "2024-01-31") =
      [{ ngayGio := "15/01/2024 09:00", maKH := "KH1", tenKhach := "An",
         chiTietSP := some [], tongThanhToan := Value.int 100, hinhThucTT := "cash" }] := by
  rw [(C5_filter_by_date _).2.2.2.2 "2024-01-01" "2024-01-31" (by decide) (by decide)]
  decide

/-- Python's string order is total. -/
theorem lexLE_total : ∀ a b : List Char, lexLE a b = true ∨ lexLE b a = true := by
  intro a
  induction a with
  | nil => intro b; exact Or.inl rfl
  | cons x xs ih =>
    intro b
    cases b with
    | nil => exact Or.inr rfl
    | cons y ys =>
      rcases lt_trichotomy x y with h | h | h
      · left; simp [lexLE, h]
      · subst h
        rcases ih ys with h2 | h2
        · left; simp [lexLE, lt_irrefl, h2]
        · right; simp [lexLE, lt_irrefl, h2]
      · right; simp [lexLE, h]

/-- Python's string order is transitive. -/
theorem lexLE_trans : ∀ a b c : List Char,
    lexLE a b = true → lexLE b c = true → lexLE a c = true := by
  intro a
  induction a with
  | nil => intro b c _ _; rfl
  | cons x xs ih =>
    intro b c hab hbc
    cases b with
    | nil => simp [lexLE] at hab
    | cons y ys =>
      cases c with
      | nil => simp [lexLE] at hbc
      | cons z zs =>
        rcases lt_trichotomy x y with h1 | h1 | h1
        · rcases lt_trichotomy y z with h2 | h2 | h2
          · simp [lexLE, lt_trans h1 h2]
          · subst h2; simp [lexLE, h1]
          · simp [lexLE, lt_asymm h2, h2] at hbc
        · subst h1
          simp only [lexLE, lt_irrefl, if_false] at hab
          rcases lt_trichotomy x z with h2 | h2 | h2
          · simp [lexLE, h2]
          · subst h2
            simp only [lexLE, lt_irrefl, if_false] at hbc ⊢
            exact ih ys zs hab hbc
          · simp [lexLE, lt_asymm h2, h2] at hbc
        · simp [lexLE, lt_asymm h1, h1] at hab

/-- The bucket-key order used to sort revenue pairs is total. -/
instance instRevPairTotal :
    IsTotal (String × Int) (fun a b => pyStrLE a.1 b.1 = true) :=
  ⟨fun a b => lexLE_total a.1.data b.1.data⟩

/-- The bucket-key order used to sort revenue pairs is transitive. -/
instance instRevPairTrans :
    IsTrans (String × Int) (fun a b => pyStrLE a.1 b.1 = true) :=
  ⟨fun _ _ _ h1 h2 => lexLE_trans _ _ _ h1 h2⟩

/-- The descending-revenue order used to sort product entries is total. -/
instance instProdTripleTotal :
    IsTotal (String × Int × Int) (fun a b => b.2.2 ≤ a.2.2) :=
  ⟨fun a b => le_total b.2.2 a.2.2⟩

/-- The descending-revenue order used to sort product entries is
transitive. -/
instance instProdTripleTrans :
    IsTrans (String × Int × Int) (fun a b => b.2.2 ≤ a.2.2) :=
  ⟨fun _ _ _ h1 h2 => le_trans h2 h1⟩

/-- The descending-total order used to sort customer entries is total. -/
instance instCustStatTotal :
    IsTotal CustomerStat (fun a b => b.total_spent ≤ a.total_spent) :=
  ⟨fun a b => le_total b.total_spent a.total_spent⟩

/-- The descending-total order used to sort customer entries is
transitive. -/
instance instCustStatTrans :
    IsTrans CustomerStat (fun a b => b.total_spent ≤ a.total_spent) :=
  ⟨fun _ _ _ h1 h2 => le_trans h2 h1⟩

/-- `keyTotal` on the empty association list. -/
theorem keyTotal_nil (k : String) : keyTotal [] k = 0 := rfl

/-- `keyTotal` on a cons cell. -/
theorem keyTotal_cons (p : String × Int) (l : List (String × Int)) (k : String) :
    keyTotal (p :: l) k = (if p.1 = k then p.2 else 0) + keyTotal l k := by
  unfold keyTotal
  by_cases h : p.1 = k
  · rw [List.filter_cons_of_pos (by simpa using h)]
    simp [h]
  · rw [List.filter_cons_of_neg (by simpa using h)]
    simp [h]

/-- `keyTotal` is invariant under permutation. -/
theorem keyTotal_perm {l l' : List (String × Int)} (h : l.Perm l') (k : String) :
    keyTotal l k = keyTotal l' k := by
  unfold keyTotal
  exact ((h.filter _).map _).sum_eq

/-- Bumping key `k` by `v` adds `v` to that key's total and leaves every
other key's total unchanged. -/
theorem keyTotal_bumpAssoc (l : List (String × Int)) (k : String) (v : Int)
    (k' : String) :
    keyTotal (bumpAssoc (· + ·) l k v) k'
      = keyTotal l k' + if k' = k then v else 0 := by
  induction l with
  | nil =>
    by_cases h : k' = k
    · subst h; simp [bumpAssoc, keyTotal_cons, keyTotal_nil]
    · have h2 : ¬(k = k') := fun e => h e.symm
      simp [bumpAssoc, keyTotal_cons, keyTotal_nil, h, h2]
  | cons p rest ih =>
    by_cases hpk : p.1 = k
    · simp only [bumpAssoc, if_pos hpk, keyTotal_cons]
      by_cases hpk' : p.1 = k'
      · have hk : k' = k := hpk'.symm.trans hpk
        simp only [if_pos hpk', if_pos hk]
        ring
      · have hk : ¬(k' = k) := fun e => hpk' (hpk.trans e.symm)
        simp only [if_neg hpk', if_neg hk]
        ring
    · simp only [bumpAssoc, if_neg hpk, keyTotal_cons, ih]
      ring

/-- The keys present after a bump are the old keys plus the bumped key. -/
theorem mem_keys_bumpAssoc (l : List (String × Int)) (k : String) (v : Int)
    (k' : String) :
    k' ∈ (bumpAssoc (· + ·) l k v).map Prod.fst
      ↔ k' ∈ l.map Prod.fst ∨ k' = k := by
  induction l with
  | nil => simp [bumpAssoc, eq_comm]
  | cons p rest ih =>
    by_cases hpk : p.1 = k
    · simp only [bumpAssoc, if_pos hpk, List.map_cons, List.mem_cons]
      constructor
      · rintro (h | h)
        · exact Or.inl (Or.inl h)
        · exact Or.inl (Or.inr h)
      · rintro ((h | h) | h)
        · exact Or.inl h
        · exact Or.inr h
        · exact Or.inl (h.trans hpk.symm)
    · simp only [bumpAssoc, if_neg hpk, List.map_cons, List.mem_cons, ih]
      tauto

/-- `sumAt` on the empty association list. -/
theorem sumAt_nil {α : Type} (f : α → Int) (k : String) : sumAt f [] k = 0 := rfl

/-- `sumAt` on a cons cell. -/
theorem sumAt_cons {α : Type} (f : α → Int) (p : String × α)
    (l : List (String × α)) (k : String) :
    sumAt f (p :: l) k = (if p.1 = k then f p.2 else 0) + sumAt f l k := by
  unfold sumAt
  by_cases h : p.1 = k
  · rw [List.filter_cons_of_pos (by simpa using h)]
    simp [h]
  · rw [List.filter_cons_of_neg (by simpa using h)]
    simp [h]

/-- `sumAt` is invariant under permutation. -/
theorem sumAt_perm {α : Type} (f : α → Int) {l l' : List (String × α)}
    (h : l.Perm l') (k : String) : sumAt f l k = sumAt f l' k := by
  unfold sumAt
  exact ((h.filter _).map _).sum_eq

/-- `sumAt` vanishes at keys that do not occur. -/
theorem sumAt_eq_zero_of_not_mem {α : Type} (f : α → Int)
    {l : List (String × α)} {k : String} (h : k ∉ l.map Prod.fst) :
    sumAt f l k = 0 := by
  induction l with
  | nil => rfl
  | cons p rest ih =>
    simp only [List.map_cons, List.mem_cons] at h
    push_neg at h
    rw [sumAt_cons, if_neg (fun e => h.1 e.symm), ih h.2]
    ring

/-- Bumping key `k` adds `f v` to that key's `sumAt` and leaves every
other key's `sumAt` unchanged, whenever `f` distributes over `add`. -/
theorem sumAt_bumpAssoc {α : Type} (add : α → α → α) (f : α → Int)
    (hf : ∀ a b, f (add a b) = f a + f b)
    (l : List (String × α)) (k : String) (v : α) (k' : String) :
    sumAt f (bumpAssoc add l k v) k'
      = sumAt f l k' + if k' = k then f v else 0 := by
  induction l with
  | nil =>
    by_cases h : k' = k
    · subst h; simp [bumpAssoc, sumAt_cons, sumAt_nil]
    · have h2 : ¬(k = k') := fun e => h e.symm
      simp [bumpAssoc, sumAt_cons, sumAt_nil, h, h2]
  | cons p rest ih =>
    by_cases hpk : p.1 = k
    · simp only [bumpAssoc, if_pos hpk, sumAt_cons]
      by_cases hpk' : p.1 = k'
      · have hk : k' = k := hpk'.symm.trans hpk
        simp only [if_pos hpk', if_pos hk, hf]
        ring
      · have hk : ¬(k' = k) := fun e => hpk' (hpk.trans e.symm)
        simp only [if_neg hpk', if_neg hk]
        ring
    · simp only [bumpAssoc, if_neg hpk, sumAt_cons, ih]
      ring

/-- The keys after a bump: unchanged when the key was present, otherwise
the old keys with the new key appended. -/
theorem keys_bumpAssoc {α : Type} (add : α → α → α) (l : List (String × α))
    (k : String) (v : α) :
    (bumpAssoc add l k v).map Prod.fst
      = if k ∈ l.map Prod.fst then l.map Prod.fst
        else l.map Prod.fst ++ [k] := by
  induction l with
  | nil => simp [bumpAssoc]
  | cons p rest ih =>
    by_cases hpk : p.1 = k
    · simp [bumpAssoc, hpk]
    · simp only [bumpAssoc, if_neg hpk, List.map_cons, ih]
      by_cases hk : k ∈ rest.map Prod.fst
      · have hmem : k ∈ p.1 :: rest.map Prod.fst := List.mem_cons_of_mem _ hk
        simp [hk, hmem]
      · have hne : ¬(k = p.1) := fun e => hpk e.symm
        have hmem : ¬(k ∈ p.1 :: rest.map Prod.fst) := by
          simp [hne, hk]
        simp [hk, hmem]

/-- Bumping preserves duplicate-freeness of the keys. -/
theorem keys_nodup_bumpAssoc {α : Type} (add : α → α → α)
    {l : List (String × α)} (h : (l.map Prod.fst).Nodup) (k : String) (v : α) :
    ((bumpAssoc add l k v).map Prod.fst).Nodup := by
  rw [keys_bumpAssoc]
  by_cases hk : k ∈ l.map Prod.fst
  · simpa [hk] using h
  · simp [hk, List.nodup_append, h]

/-- In an association list with duplicate-free keys, each entry carries
exactly its key's `sumAt`. -/
theorem entry_eq_sumAt {α : Type} (f : α → Int) {l : List (String × α)}
    (h : (l.map Prod.fst).Nodup) {p : String × α} (hp : p ∈ l) :
    f p.2 = sumAt f l p.1 := by
  induction l with
  | nil => cases hp
  | cons q rest ih =>
    simp only [List.map_cons, List.nodup_cons] at h
    rcases List.mem_cons.mp hp with rfl | hp'
    · rw [sumAt_cons, if_pos rfl, sumAt_eq_zero_of_not_mem f h.1]
      ring
    · have hq : ¬(q.1 = p.1) := by
        intro e
        exact h.1 (e ▸ List.mem_map.mpr ⟨p, hp', rfl⟩)
      rw [sumAt_cons, if_neg hq, ← ih h.2 hp']
      ring

/-- `bucketTotal` on a cons cell. -/
theorem bucketTotal_cons (period : String) (inv : Invoice) (rest : List Invoice)
    (k : String) :
    bucketTotal period (inv :: rest) k
      = (if inv.ngayGio ≠ "" ∧ revenueBucketKey period inv.ngayGio = some k
         then safe_parse_amount inv.tongThanhToan else 0)
        + bucketTotal period rest k := by
  unfold bucketTotal
  by_cases h : inv.ngayGio ≠ "" ∧ revenueBucketKey period inv.ngayGio = some k
  · rw [List.filter_cons_of_pos (by simpa using h)]
    simp [h]
  · rw [List.filter_cons_of_neg (by simpa using h)]
    simp [h]

/-- The revenue accumulation, characterized: bucket totals add up
invoice-wise, and the keys present are exactly the buckets of the
contributing invoices. -/
theorem revenueFoldFrom_spec (period : String) (invs : List Invoice) :
    ∀ acc : List (String × Int),
      (∀ k, keyTotal (revenueFoldFrom period acc invs) k
          = keyTotal acc k + bucketTotal period invs k) ∧
      (∀ k, k ∈ (revenueFoldFrom period acc invs).map Prod.fst
          ↔ k ∈ acc.map Prod.fst ∨
            ∃ inv ∈ invs, inv.ngayGio ≠ "" ∧
              revenueBucketKey period inv.ngayGio = some k) := by
  induction invs with
  | nil =>
    intro acc
    constructor
    · intro k; simp [revenueFoldFrom, bucketTotal, keyTotal]
    · intro k; simp [revenueFoldFrom]
  | cons inv rest ih =>
    intro acc
    by_cases hng : inv.ngayGio = ""
    · constructor
      · intro k
        simp only [revenueFoldFrom, if_pos hng]
        rw [(ih acc).1 k, bucketTotal_cons, if_neg (fun hc => hc.1 hng)]
        ring
      · intro k
        simp only [revenueFoldFrom, if_pos hng]
        rw [(ih acc).2 k]
        simp only [List.mem_cons, exists_eq_or_imp]
        have : ¬(inv.ngayGio ≠ "" ∧ revenueBucketKey period inv.ngayGio = some k) :=
          fun hc => hc.1 hng
        tauto
    · cases hkey : revenueBucketKey period inv.ngayGio with
      | none =>
        constructor
        · intro k
          simp only [revenueFoldFrom, if_neg hng, hkey]
          rw [(ih acc).1 k, bucketTotal_cons,
            if_neg (fun hc => Option.noConfusion (hkey ▸ hc.2))]
          ring
        · intro k
          simp only [revenueFoldFrom, if_neg hng, hkey]
          rw [(ih acc).2 k]
          simp only [List.mem_cons, exists_eq_or_imp]
          have : ¬(inv.ngayGio ≠ "" ∧ revenueBucketKey period inv.ngayGio = some k) :=
            fun hc => Option.noConfusion (hkey ▸ hc.2)
          tauto
      | some k0 =>
        constructor
        · intro k
          simp only [revenueFoldFrom, if_neg hng, hkey]
          rw [(ih _).1 k, keyTotal_bumpAssoc, bucketTotal_cons]
          by_cases hkk : k = k0
          · subst hkk
            rw [if_pos rfl, if_pos ⟨hng, by rw [hkey]⟩]
            ring
          · rw [if_neg hkk, if_neg (fun hc => hkk (Option.some.inj (hkey ▸ hc.2)).symm)]
            ring
        · intro k
          simp only [revenueFoldFrom, if_neg hng, hkey]
          rw [(ih _).2 k, mem_keys_bumpAssoc]
          simp only [List.mem_cons, exists_eq_or_imp]
          constructor
          · rintro ((h | h) | h)
            · exact Or.inl h
            · exact Or.inr (Or.inl ⟨hng, by rw [hkey, h]⟩)
            · exact Or.inr (Or.inr h)
          · rintro (h | h | h)
            · exact Or.inl (Or.inl h)
            · exact Or.inl (Or.inr (Option.some.inj (hkey ▸ h.2)).symm)
            · exact Or.inr h

/-- C1 (code-bug evidence): `get_dashboard_stats` on the empty invoice set
does not return the success payload the spec promises: the leftover debug
line references the undefined name `customer_codes_in_period`, so the
caught `NameError` turns every call into a failure result.  The payload
computed just above that line does have `total_revenue = 0` and
`avg_customer_spent = 0`, confirming that the division-by-zero guard part
of the claim is about the intended computation. -/
theorem C1_dashboard_empty_fails :
    get_dashboard_stats [] [] [] Option.none Option.none =
      ApiResult.failure "name 'customer_codes_in_period' is not defined" ∧
    (dashboard_payload [] [] Option.none Option.none).total_revenue = 0 ∧
    (dashboard_payload [] [] Option.none Option.none).avg_customer_spent = 0 ∧
    (dashboard_payload [] [] Option.none Option.none).total_customers = 0 := by
  refine ⟨rfl, rfl, ?_, rfl⟩
  decide

/-- The name-set accumulation of the dashboard's distinct-customer count:
it stays duplicate-free and collects exactly the nonempty stripped
display names. -/
theorem periodCustomerNames_aux (invs : List Invoice) :
    ∀ acc : List String, acc.Nodup →
      (invs.foldl
        (fun acc inv =>
          let n := pyStrip inv.tenKhach
          if n ≠ "" ∧ n ∉ acc then acc ++ [n] else acc)
        acc).Nodup ∧
      (invs.foldl
        (fun acc inv =>
          let n := pyStrip inv.tenKhach
          if n ≠ "" ∧ n ∉ acc then acc ++ [n] else acc)
        acc).toFinset
        = acc.toFinset ∪
          ((invs.map (fun i => pyStrip i.tenKhach)).filter (fun s => s ≠ "")).toFinset := by
  induction invs with
  | nil =>
    intro acc hacc
    exact ⟨hacc, by simp⟩
  | cons inv rest ih =>
    intro acc hacc
    simp only [List.foldl_cons, List.map_cons]
    by_cases hn : pyStrip inv.tenKhach ≠ "" ∧ pyStrip inv.tenKhach ∉ acc
    · rw [if_pos hn]
      have hacc' : (acc ++ [pyStrip inv.tenKhach]).Nodup := by
        simp [List.nodup_append, hacc, hn.2]
      refine ⟨(ih _ hacc').1, ?_⟩
      rw [(ih _ hacc').2]
      rw [List.filter_cons_of_pos (by simpa using hn.1)]
      ext a
      simp [or_assoc, or_left_comm, or_comm]
    · rw [if_neg hn]
      refine ⟨(ih _ hacc).1, ?_⟩
      rw [(ih _ hacc).2]
      by_cases he : pyStrip inv.tenKhach = ""
      · rw [List.filter_cons_of_neg (by simpa using he)]
      · have hmem : pyStrip inv.tenKhach ∈ acc := by
          rcases not_and_or.mp hn with h | h
          · exact absurd he (not_not.mp (by simpa using h))
          · exact not_not.mp h
        rw [List.filter_cons_of_pos (by simpa using he)]
        ext a
        simp only [Finset.mem_union, List.mem_toFinset, List.toFinset_cons,
          Finset.mem_insert]
        constructor
        · rintro (h | h)
          · exact Or.inl h
          · exact Or.inr (Or.inr h)
        · rintro (h | h | h)
          · exact Or.inl h
          · exact Or.inl (h ▸ hmem)
          · exact Or.inr h

/-- C2 counterexample: two filtered invoices carrying the same display
name `"Anna"` under different customer codes `"KH01"`/`"KH02"` give a
distinct-customer statistic of `1`, not the `2` distinct non-empty codes
the claim requires. -/
theorem C2_total_customers_counterexample :
    (dashboard_payload
        [{ ngayGio := "01/01/2024 10:00", maKH := "KH01", tenKhach := "Anna",
           chiTietSP := some [], tongThanhToan := Value.int 100, hinhThucTT := "cash" },
         { ngayGio := "01/01/2024 11:00", maKH := "KH02", tenKhach := "Anna",
           chiTietSP := some [], tongThanhToan := Value.int 200, hinhThucTT := "cash" }]
        [] Option.none Option.none).total_customers = 1 ∧
    spec_distinct_customer_codes
        (filter_invoices_by_date
          [{ ngayGio := "01/01/2024 10:00", maKH := "KH01", tenKhach := "Anna",
             chiTietSP := some [], tongThanhToan := Value.int 100, hinhThucTT := "cash" },
           { ngayGio := "01/01/2024 11:00", maKH := "KH02", tenKhach := "Anna",
             chiTietSP := some [], tongThanhToan := Value.int 200, hinhThucTT := "cash" }]
          Option.none Option.none) = 2 ∧
    (dashboard_payload
        [{ ngayGio := "01/01/2024 10:00", maKH := "KH01", tenKhach := "Anna",
           chiTietSP := some [], tongThanhToan := Value.int 100, hinhThucTT := "cash" },
         { ngayGio := "01/01/2024 11:00", maKH := "KH02", tenKhach := "Anna",
           chiTietSP := some [], tongThanhToan := Value.int 200, hinhThucTT := "cash" }]
        [] Option.none Option.none).total_customers ≠
      spec_distinct_customer_codes
        (filter_invoices_by_date
          [{ ngayGio := "01/01/2024 10:00", maKH := "KH01", tenKhach := "Anna",
             chiTietSP := some [], tongThanhToan := Value.int 100, hinhThucTT := "cash" },
           { ngayGio := "01/01/2024 11:00", maKH := "KH02", tenKhach := "Anna",
             chiTietSP := some [], tongThanhToan := Value.int 200, hinhThucTT := "cash" }]
          Option.none Option.none) := by
  refine ⟨by decide, by decide, by decide⟩

/-- C2 (amended): for every invoice set and date range, the dashboard's
distinct-customer statistic equals the number of distinct non-empty
stripped display names among the date-filtered invoices — it is keyed by
display name, not by customer code, so two same-named customers with
different codes count as one. -/
theorem C2_total_customers_by_name (invoices : List Invoice)
    (products : List Product) (df dt : Option String) :
    (dashboard_payload invoices products df dt).total_customers =
      (((filter_invoices_by_date invoices df dt).map
          (fun i => pyStrip i.tenKhach)).filter (fun s => s ≠ "")).toFinset.card := by
  have h := periodCustomerNames_aux (filter_invoices_by_date invoices df dt) [] (by simp)
  show (periodCustomerNames (filter_invoices_by_date invoices df dt)).length = _
  unfold periodCustomerNames
  rw [← List.toFinset_card_of_nodup h.1, h.2]
  simp

/-- C4: for every invoice set and date range, and for the `week` and
`month` granularities, `get_revenue_stats` succeeds with a list of
`(bucket, revenue)` pairs that is sorted ascending by bucket key under
lexicographic string comparison, whose total at each key is the sum of the
parsed totals of the filtered invoices bucketed there (invoices whose
dates are unparsable contribute nothing), and whose keys are exactly the
buckets of the contributing invoices; moreover on a `D/M/Y` date the
`week` bucket key is `Tuần ((day-1)//7+1)/month/year` (the 1-based
week-of-month) and the `month` bucket key is `month/year`. -/
theorem C4_get_revenue_stats (invoices : List Invoice) (df dt : Option String)
    (period : String) (hp : period = "week" ∨ period = "month") :
    ∃ l, get_revenue_stats invoices period df dt = ApiResult.success l ∧
      List.Pairwise (fun a b => pyStrLE a.1 b.1 = true) l ∧
      (∀ k, keyTotal l k
          = bucketTotal period (filter_invoices_by_date invoices df dt) k) ∧
      (∀ k, k ∈ l.map Prod.fst ↔
        ∃ inv ∈ filter_invoices_by_date invoices df dt,
          inv.ngayGio ≠ "" ∧ revenueBucketKey period inv.ngayGio = some k) ∧
      (∀ d m y : String, pyIsdigit d = true → pyIsdigit m = true →
        pyIsdigit y = true →
        revenueBucketKey "week" (d ++ "/" ++ m ++ "/" ++ y)
            = some ("Tuần "
                ++ toString (Int.fdiv (((digitsToNat d.data : Nat) : Int) - 1) 7 + 1)
                ++ "/" ++ m ++ "/" ++ y) ∧
        revenueBucketKey "month" (d ++ "/" ++ m ++ "/" ++ y)
            = some (m ++ "/" ++ y)) := by
  refine ⟨(revenueFold period (filter_invoices_by_date invoices df dt)).insertionSort
      (fun a b => pyStrLE a.1 b.1 = true), rfl, ?_, ?_, ?_, ?_⟩
  · exact List.sorted_insertionSort _ _
  · intro k
    rw [keyTotal_perm (List.perm_insertionSort _ _) k]
    have h := (revenueFoldFrom_spec period
      (filter_invoices_by_date invoices df dt) []).1 k
    unfold revenueFold
    rw [h, keyTotal_nil, zero_add]
  · intro k
    rw [((List.perm_insertionSort _ _).map Prod.fst).mem_iff]
    have h := (revenueFoldFrom_spec period
      (filter_invoices_by_date invoices df dt) []).2 k
    unfold revenueFold
    rw [h]
    simp
  · intro d m y hd hm hy
    have hdint : pyInt? d = some ((digitsToNat d.data : Nat) : Int) :=
      pyInt?_of_digits hd
    have hw1 : ¬(("week" : String) = "day") := by decide
    have hm1 : ¬(("month" : String) = "day") := by decide
    have hm2 : ¬(("month" : String) = "week") := by decide
    constructor
    · simp only [revenueBucketKey, data_dmY,
        chSplit_of_not_mem (dmY_no_space hd hm hy), List.headD_cons,
        chSplit_dmY hd hm hy, List.map_cons, List.map_nil, string_mk_data,
        hw1, if_false, if_pos rfl, hdint, ite_true]
    · simp only [revenueBucketKey, data_dmY,
        chSplit_of_not_mem (dmY_no_space hd hm hy), List.headD_cons,
        chSplit_dmY hd hm hy, List.map_cons, List.map_nil, string_mk_data,
        hm1, hm2, if_false, if_pos rfl, ite_true]

/-- Witness for `C4_get_revenue_stats`: the theorem applied at a concrete
invoice list with the `month` granularity, together with a direct
evaluation of the same call. -/
theorem C4_get_revenue_stats_witness :
    (∃ l, get_revenue_stats
        [{ ngayGio := "15/01/2024 09:00", maKH := "KH1", tenKhach := "An",
           chiTietSP := some [], tongThanhToan := Value.int 100, hinhThucTT := "cash" },
         { ngayGio := "05/02/2024 09:00", maKH := "KH2", tenKhach := "Ba",
           chiTietSP := some [], tongThanhToan := Value.int 30, hinhThucTT := "cash" },
         { ngayGio := "20/01/2024 10:00", maKH := "KH1", tenKhach := "An",
           chiTietSP := some [], tongThanhToan := Value.int 50, hinhThucTT := "cash" }]
        "month" Option.none Option.none = ApiResult.success l ∧
      List.Pairwise (fun a b => pyStrLE a.1 b.1 = true) l ∧
      (∀ k, keyTotal l k
          = bucketTotal "month"
              (filter_invoices_by_date
                [{ ngayGio := "15/01/2024 09:00", maKH := "KH1", tenKhach := "An",
                   chiTietSP := some [], tongThanhToan := Value.int 100, hinhThucTT := "cash" },
                 { ngayGio := "05/02/2024 09:00", maKH := "KH2", tenKhach := "Ba",
                   chiTietSP := some [], tongThanhToan := Value.int 30, hinhThucTT := "cash" },
                 { ngayGio := "20/01/2024 10:00", maKH := "KH1", tenKhach := "An",
                   chiTietSP := some [], tongThanhToan := Value.int 50, hinhThucTT := "cash" }]
                Option.none Option.none) k) ∧
      (∀ k, k ∈ l.map Prod.fst ↔
        ∃ inv ∈ filter_invoices_by_date
            [{ ngayGio := "15/01/2024 09:00", maKH := "KH1", tenKhach := "An",
               chiTietSP := some [], tongThanhToan := Value.int 100, hinhThucTT := "cash" },
             { ngayGio := "05/02/2024 09:00", maKH := "KH2", tenKhach := "Ba",
               chiTietSP := some [], tongThanhToan := Value.int 30, hinhThucTT := "cash" },
             { ngayGio := "20/01/2024 10:00", maKH := "KH1", tenKhach := "An",
               chiTietSP := some [], tongThanhToan := Value.int 50, hinhThucTT := "cash" }]
            Option.none Option.none,
          inv.ngayGio ≠ "" ∧ revenueBucketKey "month" inv.ngayGio = some k) ∧
      (∀ d m y : String, pyIsdigit d = true → pyIsdigit m = true →
        pyIsdigit y = true →
        revenueBucketKey "week" (d ++ "/" ++ m ++ "/" ++ y)
            = some ("Tuần "
                ++ toString (Int.fdiv (((digitsToNat d.data : Nat) : Int) - 1) 7 + 1)
                ++ "/" ++ m ++ "/" ++ y) ∧
        revenueBucketKey "month" (d ++ "/" ++ m ++ "/" ++ y)
            = some (m ++ "/" ++ y))) ∧
    get_revenue_stats
        [{ ngayGio := "15/01/2024 09:00", maKH := "KH1", tenKhach := "An",
           chiTietSP := some [], tongThanhToan := Value.int 100, hinhThucTT := "cash" },
         { ngayGio := "05/02/2024 09:00", maKH := "KH2", tenKhach := "Ba",
           chiTietSP := some [], tongThanhToan := Value.int 30, hinhThucTT := "cash" },
         { ngayGio := "20/01/2024 10:00", maKH := "KH1", tenKhach := "An",
           chiTietSP := some [], tongThanhToan := Value.int 50, hinhThucTT := "cash" }]
        "month" Option.none Option.none
      = ApiResult.success [("01/2024", 150), ("02/2024", 30)] :=
  ⟨C4_get_revenue_stats _ Option.none Option.none "month" (Or.inr rfl), by decide⟩

/-- A bucket key is never produced for a period outside
`{day, week, month}`: the `key` variable is simply never assigned and the
per-invoice `NameError` is swallowed. -/
theorem revenueBucketKey_invalid {period : String} (h1 : period ≠ "day")
    (h2 : period ≠ "week") (h3 : period ≠ "month") (s : String) :
    revenueBucketKey period s = Option.none := by
  simp only [revenueBucketKey]
  split
  · simp [h1, h2, h3]
  · rfl

/-- C10: for every invoice set, date range and period outside
`{day, week, month}`, `get_revenue_stats` reports success with an empty
data list: every invoice is skipped by the swallowed per-invoice error, no
failure is surfaced. -/
theorem C10_get_revenue_stats_invalid_period (invoices : List Invoice)
    (df dt : Option String) (period : String)
    (h1 : period ≠ "day") (h2 : period ≠ "week") (h3 : period ≠ "month") :
    get_revenue_stats invoices period df dt = ApiResult.success [] := by
  have hfold : ∀ (invs : List Invoice) (acc : List (String × Int)),
      revenueFoldFrom period acc invs = acc := by
    intro invs
    induction invs with
    | nil => intro acc; rfl
    | cons inv rest ih =>
      intro acc
      simp only [revenueFoldFrom, revenueBucketKey_invalid h1 h2 h3]
      by_cases hng : inv.ngayGio = "" <;> simp [hng, ih]
  simp only [get_revenue_stats, revenueFold, hfold]
  rfl

/-- Witness for `C10_get_revenue_stats_invalid_period`: the theorem
applied at the unknown period `"year"` and a nonempty invoice list. -/
theorem C10_get_revenue_stats_invalid_period_witness :
    get_revenue_stats
        [{ ngayGio := "15/01/2024 09:00", maKH := "KH1", tenKhach := "An",
           chiTietSP := some [], tongThanhToan := Value.int 100, hinhThucTT := "cash" }]
        "year" Option.none Option.none = ApiResult.success [] :=
  C10_get_revenue_stats_invalid_period _ Option.none Option.none "year"
    (by decide) (by decide) (by decide)

/-- The per-invoice line-item accumulation, characterized by `sumAt`. -/
theorem sumAt_productItemsFold (f : Int × Int → Int)
    (hf : ∀ a b : Int × Int, f (a.1 + b.1, a.2 + b.2) = f a + f b)
    (items : List LineItem) :
    ∀ (acc : List (String × Int × Int)) (k : String),
      sumAt f (productItemsFold acc items) k
        = sumAt f acc k
          + ((items.filter (fun it => it.name = k)).map
              (fun it => f (it.quantity, safe_parse_amount it.total))).sum := by
  induction items with
  | nil => intro acc k; simp [productItemsFold]
  | cons it rest ih =>
    intro acc k
    simp only [productItemsFold]
    rw [ih]
    rw [sumAt_bumpAssoc _ f (fun a b => hf a b)]
    by_cases h : it.name = k
    · rw [List.filter_cons_of_pos (by simpa using h), if_pos h.symm]
      simp only [List.map_cons, List.sum_cons]
      ring
    · rw [List.filter_cons_of_neg (by simpa using h),
        if_neg (fun e => h e.symm)]
      ring

/-- The per-invoice accumulation preserves duplicate-free keys. -/
theorem keys_nodup_productItemsFold (items : List LineItem) :
    ∀ acc : List (String × Int × Int), (acc.map Prod.fst).Nodup →
      ((productItemsFold acc items).map Prod.fst).Nodup := by
  induction items with
  | nil => intro acc h; exact h
  | cons it rest ih =>
    intro acc h
    simp only [productItemsFold]
    exact ih _ (keys_nodup_bumpAssoc _ h _ _)

/-- The invoice-level product accumulation, characterized by `sumAt`. -/
theorem sumAt_productFoldFrom (f : Int × Int → Int)
    (hf : ∀ a b : Int × Int, f (a.1 + b.1, a.2 + b.2) = f a + f b)
    (invs : List Invoice) :
    ∀ (acc : List (String × Int × Int)) (k : String),
      sumAt f (productFoldFrom acc invs) k
        = sumAt f acc k
          + (invs.map (fun inv =>
              (((itemsOf inv).filter (fun it => it.name = k)).map
                (fun it => f (it.quantity, safe_parse_amount it.total))).sum)).sum := by
  induction invs with
  | nil => intro acc k; simp [productFoldFrom]
  | cons inv rest ih =>
    intro acc k
    simp only [productFoldFrom]
    cases hci : inv.chiTietSP with
    | none =>
      rw [ih]
      have hio : itemsOf inv = [] := by simp [itemsOf, hci]
      simp only [List.map_cons, List.sum_cons, hio, List.filter_nil,
        List.map_nil, List.sum_nil]
      ring
    | some items =>
      rw [ih, sumAt_productItemsFold f hf]
      have hio : itemsOf inv = items := by simp [itemsOf, hci]
      simp only [List.map_cons, List.sum_cons, hio]
      ring

/-- The invoice-level product accumulation preserves duplicate-free
keys. -/
theorem keys_nodup_productFoldFrom (invs : List Invoice) :
    ∀ acc : List (String × Int × Int), (acc.map Prod.fst).Nodup →
      ((productFoldFrom acc invs).map Prod.fst).Nodup := by
  induction invs with
  | nil => intro acc h; exact h
  | cons inv rest ih =>
    intro acc h
    simp only [productFoldFrom]
    cases hci : inv.chiTietSP with
    | none => exact ih _ h
    | some items => exact ih _ (keys_nodup_productItemsFold items acc h)

/-- The aggregated quantity at a product name is the re-sum over the
invoices' parsed line items. -/
theorem productStatsFold_qty (invs : List Invoice) (k : String) :
    sumAt Prod.fst (productStatsFold invs) k = invQtyTotal invs k := by
  unfold productStatsFold
  rw [sumAt_productFoldFrom Prod.fst (fun a b => rfl) invs [] k, sumAt_nil,
    zero_add]
  rfl

/-- The aggregated revenue at a product name is the re-sum over the
invoices' parsed line items. -/
theorem productStatsFold_rev (invs : List Invoice) (k : String) :
    sumAt Prod.snd (productStatsFold invs) k = invRevTotal invs k := by
  unfold productStatsFold
  rw [sumAt_productFoldFrom Prod.snd (fun a b => rfl) invs [] k, sumAt_nil,
    zero_add]
  rfl

/-- C8: for every invoice set and date range, `get_product_stats`
succeeds with a list that is sorted by revenue descending, has at most 10
entries, in which every entry's quantity and revenue are the sums of that
product name's quantities and parsed totals across the line items of all
date-filtered invoices (an invoice whose line-item JSON fails to parse
contributes nothing and aborts nothing), and every aggregated product left
out of the list has revenue at most that of every listed one (the list is
the top 10 by revenue). -/
theorem C8_get_product_stats (invoices : List Invoice) (df dt : Option String) :
    ∃ l, get_product_stats invoices df dt = ApiResult.success l ∧
      List.Pairwise (fun a b : String × Int × Int => b.2.2 ≤ a.2.2) l ∧
      l.length ≤ 10 ∧
      (∀ p ∈ l,
        p.2.1 = invQtyTotal (filter_invoices_by_date invoices df dt) p.1 ∧
        p.2.2 = invRevTotal (filter_invoices_by_date invoices df dt) p.1) ∧
      (∀ q ∈ productStatsFold (filter_invoices_by_date invoices df dt),
        q ∉ l → ∀ p ∈ l, q.2.2 ≤ p.2.2) := by
  refine ⟨((productStatsFold (filter_invoices_by_date invoices df dt)).insertionSort
      (fun a b : String × Int × Int => b.2.2 ≤ a.2.2)).take 10, rfl, ?_, ?_, ?_, ?_⟩
  · exact (List.sorted_insertionSort _ _).sublist (List.take_sublist _ _)
  · exact List.length_take_le _ _
  · intro p hp
    have hps : p ∈ (productStatsFold (filter_invoices_by_date invoices df dt)).insertionSort
        (fun a b => b.2.2 ≤ a.2.2) := List.take_subset _ _ hp
    have hpa : p ∈ productStatsFold (filter_invoices_by_date invoices df dt) :=
      (List.perm_insertionSort _ _).mem_iff.mp hps
    have hnd : ((productStatsFold (filter_invoices_by_date invoices df dt)).map
        Prod.fst).Nodup :=
      keys_nodup_productFoldFrom _ [] (by simp)
    constructor
    · rw [entry_eq_sumAt Prod.fst hnd hpa, productStatsFold_qty]
    · rw [entry_eq_sumAt Prod.snd hnd hpa, productStatsFold_rev]
  · intro q hq hql p hp
    have hqs : q ∈ (productStatsFold (filter_invoices_by_date invoices df dt)).insertionSort
        (fun a b => b.2.2 ≤ a.2.2) := (List.perm_insertionSort _ _).mem_iff.mpr hq
    have hsplit := List.take_append_drop 10
      ((productStatsFold (filter_invoices_by_date invoices df dt)).insertionSort
        (fun a b => b.2.2 ≤ a.2.2))
    have hsorted := List.sorted_insertionSort
      (fun a b : String × Int × Int => b.2.2 ≤ a.2.2)
      (productStatsFold (filter_invoices_by_date invoices df dt))
    rw [← hsplit] at hsorted hqs
    rcases List.mem_append.mp hqs with hqt | hqd
    · exact absurd hqt hql
    · exact ((List.pairwise_append.mp hsorted).2.2 p hp q hqd)

/-- Witness for `C8_get_product_stats`: the theorem applied at the claim's
two-invoice example (plus an invoice whose line-item JSON fails to parse),
and a direct evaluation showing the aggregated `Coffee` entry with
quantity 4 and revenue 80000 placed before the lower-revenue product. -/
theorem C8_get_product_stats_witness :
    (∃ l, get_product_stats
        [{ ngayGio := "15/01/2024 09:00", maKH := "KH1", tenKhach := "An",
           chiTietSP := some [⟨"Coffee", 2, Value.int 40000⟩],
           tongThanhToan := Value.int 40000, hinhThucTT := "cash" },
         { ngayGio := "16/01/2024 09:00", maKH := "KH2", tenKhach := "Ba",
           chiTietSP := some [⟨"Coffee", 2, Value.int 40000⟩,
             ⟨"Tea", 1, Value.int 10000⟩],
           tongThanhToan := Value.int 50000, hinhThucTT := "cash" },
         { ngayGio := "17/01/2024 09:00", maKH := "KH3", tenKhach := "Ca",
           chiTietSP := Option.none, tongThanhToan := Value.int 99999,
           hinhThucTT := "cash" }]
        Option.none Option.none = ApiResult.success l ∧
      List.Pairwise (fun a b : String × Int × Int => b.2.2 ≤ a.2.2) l ∧
      l.length ≤ 10 ∧
      (∀ p ∈ l,
        p.2.1 = invQtyTotal (filter_invoices_by_date
          [{ ngayGio := "15/01/2024 09:00", maKH := "KH1", tenKhach := "An",
             chiTietSP := some [⟨"Coffee", 2, Value.int 40000⟩],
             tongThanhToan := Value.int 40000, hinhThucTT := "cash" },
           { ngayGio := "16/01/2024 09:00", maKH := "KH2", tenKhach := "Ba",
             chiTietSP := some [⟨"Coffee", 2, Value.int 40000⟩, ⟨"Tea", 1, Value.int 10000⟩],
             tongThanhToan := Value.int 50000, hinhThucTT := "cash" },
           { ngayGio := "17/01/2024 09:00", maKH := "KH3", tenKhach := "Ca",
             chiTietSP := Option.none, tongThanhToan := Value.int 99999,
             hinhThucTT := "cash" }] Option.none Option.none) p.1 ∧
        p.2.2 = invRevTotal (filter_invoices_by_date
          [{ ngayGio := "15/01/2024 09:00", maKH := "KH1", tenKhach := "An",
             chiTietSP := some [⟨"Coffee", 2, Value.int 40000⟩],
             tongThanhToan := Value.int 40000, hinhThucTT := "cash" },
           { ngayGio := "16/01/2024 09:00", maKH := "KH2", tenKhach := "Ba",
             chiTietSP := some [⟨"Coffee", 2, Value.int 40000⟩, ⟨"Tea", 1, Value.int 10000⟩],
             tongThanhToan := Value.int 50000, hinhThucTT := "cash" },
           { ngayGio := "17/01/2024 09:00", maKH := "KH3", tenKhach := "Ca",
             chiTietSP := Option.none, tongThanhToan := Value.int 99999,
             hinhThucTT := "cash" }] Option.none Option.none) p.1) ∧
      (∀ q ∈ productStatsFold (filter_invoices_by_date
          [{ ngayGio := "15/01/2024 09:00", maKH := "KH1", tenKhach := "An",
             chiTietSP := some [⟨"Coffee", 2, Value.int 40000⟩],
             tongThanhToan := Value.int 40000, hinhThucTT := "cash" },
           { ngayGio := "16/01/2024 09:00", maKH := "KH2", tenKhach := "Ba",
             chiTietSP := some [⟨"Coffee", 2, Value.int 40000⟩, ⟨"Tea", 1, Value.int 10000⟩],
             tongThanhToan := Value.int 50000, hinhThucTT := "cash" },
           { ngayGio := "17/01/2024 09:00", maKH := "KH3", tenKhach := "Ca",
             chiTietSP := Option.none, tongThanhToan := Value.int 99999,
             hinhThucTT := "cash" }] Option.none Option.none),
        q ∉ l → ∀ p ∈ l, q.2.2 ≤ p.2.2)) ∧
    get_product_stats
        [{ ngayGio := "15/01/2024 09:00", maKH := "KH1", tenKhach := "An",
           chiTietSP := some [⟨"Coffee", 2, Value.int 40000⟩],
           tongThanhToan := Value.int 40000, hinhThucTT := "cash" },
         { ngayGio := "16/01/2024 09:00", maKH := "KH2", tenKhach := "Ba",
           chiTietSP := some [⟨"Coffee", 2, Value.int 40000⟩,
             ⟨"Tea", 1, Value.int 10000⟩],
           tongThanhToan := Value.int 50000, hinhThucTT := "cash" },
         { ngayGio := "17/01/2024 09:00", maKH := "KH3", tenKhach := "Ca",
           chiTietSP := Option.none, tongThanhToan := Value.int 99999,
           hinhThucTT := "cash" }]
        Option.none Option.none
      = ApiResult.success [("Coffee", 4, 80000), ("Tea", 1, 10000)] :=
  ⟨C8_get_product_stats _ Option.none Option.none, by decide⟩

/-- C9: for every customer list, invoice set and date range,
`get_customer_stats` succeeds with a list sorted by total spent
descending, in which every entry belongs to a customer with at least one
matching filtered invoice and carries the re-summed parsed totals and
count of the filtered invoices whose `Mã KH` equals the entry's code; a
customer whose code matches no filtered invoice never appears; and the
result is completely independent of the cached `Tổng Chi Tiêu` field
(replacing it arbitrarily changes nothing). -/
theorem C9_get_customer_stats (customers : List Customer)
    (invoices : List Invoice) (df dt : Option String) :
    ∃ l, get_customer_stats customers invoices df dt = ApiResult.success l ∧
      List.Pairwise (fun a b : CustomerStat => b.total_spent ≤ a.total_spent) l ∧
      (∀ e ∈ l,
        ((filter_invoices_by_date invoices df dt).filter
          (fun inv => inv.maKH = e.code)).length > 0 ∧
        e.total_spent = (((filter_invoices_by_date invoices df dt).filter
          (fun inv => inv.maKH = e.code)).map
            (fun inv => safe_parse_amount inv.tongThanhToan)).sum ∧
        e.invoice_count = ((filter_invoices_by_date invoices df dt).filter
          (fun inv => inv.maKH = e.code)).length) ∧
      (∀ c ∈ customers,
        ((filter_invoices_by_date invoices df dt).filter
          (fun inv => inv.maKH = c.maKH)).length = 0 →
        ∀ e ∈ l, e.code ≠ c.maKH) ∧
      (∀ g : Customer → Value,
        get_customer_stats
            (customers.map (fun c => { c with tongChiTieu := g c }))
            invoices df dt
          = get_customer_stats customers invoices df dt) := by
  refine ⟨_, rfl, ?_, ?_, ?_, ?_⟩
  · exact List.sorted_insertionSort _ _
  · intro e he
    have hm := (List.perm_insertionSort _ _).mem_iff.mp he
    rcases List.mem_filterMap.mp hm with ⟨c, hc, hfc⟩
    dsimp only at hfc
    by_cases hlen : ((filter_invoices_by_date invoices df dt).filter
        (fun inv => inv.maKH = c.maKH)).length > 0
    · rw [if_pos hlen] at hfc
      have he2 := Option.some.inj hfc
      subst he2
      exact ⟨hlen, rfl, rfl⟩
    · rw [if_neg hlen] at hfc
      exact Option.noConfusion hfc
  · intro c hc h0 e he heq
    have hm := (List.perm_insertionSort _ _).mem_iff.mp he
    rcases List.mem_filterMap.mp hm with ⟨c', hc', hfc⟩
    dsimp only at hfc
    by_cases hlen : ((filter_invoices_by_date invoices df dt).filter
        (fun inv => inv.maKH = c'.maKH)).length > 0
    · rw [if_pos hlen] at hfc
      have he2 := Option.some.inj hfc
      subst he2
      dsimp only at heq
      rw [heq] at hlen
      omega
    · rw [if_neg hlen] at hfc
      exact Option.noConfusion hfc
  · intro g
    simp only [get_customer_stats]
    rw [List.filterMap_map]
    rfl

/-- Witness for `C9_get_customer_stats`: the theorem applied at a concrete
input, and a direct evaluation showing that the customer with no invoice
in the window is excluded even though their cached total is nonzero, and
that a matching customer's total is re-summed from the invoices. -/
theorem C9_get_customer_stats_witness :
    (∃ l, get_customer_stats ([{ maKH := "KH1", tenKhachHang := "An", soDienThoai := Value.str "0901", tongChiTieu := Value.str "7 đ" }, { maKH := "KH2", tenKhachHang := "Ba", soDienThoai := Value.str "0902", tongChiTieu := Value.str "999,999 đ" }] : List Customer) ([{ ngayGio := "15/01/2024 09:00", maKH := "KH1", tenKhach := "An", chiTietSP := some [], tongThanhToan := Value.int 100, hinhThucTT := "cash" }, { ngayGio := "16/01/2024 09:00", maKH := "KH1", tenKhach := "An", chiTietSP := some [], tongThanhToan := Value.int 50, hinhThucTT := "cash" }] : List Invoice)
        Option.none Option.none = ApiResult.success l ∧
      List.Pairwise (fun a b : CustomerStat => b.total_spent ≤ a.total_spent) l ∧
      (∀ e ∈ l,
        ((filter_invoices_by_date ([{ ngayGio := "15/01/2024 09:00", maKH := "KH1", tenKhach := "An", chiTietSP := some [], tongThanhToan := Value.int 100, hinhThucTT := "cash" }, { ngayGio := "16/01/2024 09:00", maKH := "KH1", tenKhach := "An", chiTietSP := some [], tongThanhToan := Value.int 50, hinhThucTT := "cash" }] : List Invoice) Option.none Option.none).filter
          (fun inv => inv.maKH = e.code)).length > 0 ∧
        e.total_spent = (((filter_invoices_by_date ([{ ngayGio := "15/01/2024 09:00", maKH := "KH1", tenKhach := "An", chiTietSP := some [], tongThanhToan := Value.int 100, hinhThucTT := "cash" }, { ngayGio := "16/01/2024 09:00", maKH := "KH1", tenKhach := "An", chiTietSP := some [], tongThanhToan := Value.int 50, hinhThucTT := "cash" }] : List Invoice) Option.none Option.none).filter
          (fun inv => inv.maKH = e.code)).map
            (fun inv => safe_parse_amount inv.tongThanhToan)).sum ∧
        e.invoice_count = ((filter_invoices_by_date ([{ ngayGio := "15/01/2024 09:00", maKH := "KH1", tenKhach := "An", chiTietSP := some [], tongThanhToan := Value.int 100, hinhThucTT := "cash" }, { ngayGio := "16/01/2024 09:00", maKH := "KH1", tenKhach := "An", chiTietSP := some [], tongThanhToan := Value.int 50, hinhThucTT := "cash" }] : List Invoice) Option.none Option.none).filter
          (fun inv => inv.maKH = e.code)).length) ∧
      (∀ c ∈ ([{ maKH := "KH1", tenKhachHang := "An", soDienThoai := Value.str "0901", tongChiTieu := Value.str "7 đ" }, { maKH := "KH2", tenKhachHang := "Ba", soDienThoai := Value.str "0902", tongChiTieu := Value.str "999,999 đ" }] : List Customer),
        ((filter_invoices_by_date ([{ ngayGio := "15/01/2024 09:00", maKH := "KH1", tenKhach := "An", chiTietSP := some [], tongThanhToan := Value.int 100, hinhThucTT := "cash" }, { ngayGio := "16/01/2024 09:00", maKH := "KH1", tenKhach := "An", chiTietSP := some [], tongThanhToan := Value.int 50, hinhThucTT := "cash" }] : List Invoice) Option.none Option.none).filter
          (fun inv => inv.maKH = c.maKH)).length = 0 →
        ∀ e ∈ l, e.code ≠ c.maKH) ∧
      (∀ g : Customer → Value,
        get_customer_stats
            (List.map (fun c => { c with tongChiTieu := g c }) ([{ maKH := "KH1", tenKhachHang := "An", soDienThoai := Value.str "0901", tongChiTieu := Value.str "7 đ" }, { maKH := "KH2", tenKhachHang := "Ba", soDienThoai := Value.str "0902", tongChiTieu := Value.str "999,999 đ" }] : List Customer))
            ([{ ngayGio := "15/01/2024 09:00", maKH := "KH1", tenKhach := "An", chiTietSP := some [], tongThanhToan := Value.int 100, hinhThucTT := "cash" }, { ngayGio := "16/01/2024 09:00", maKH := "KH1", tenKhach := "An", chiTietSP := some [], tongThanhToan := Value.int 50, hinhThucTT := "cash" }] : List Invoice) Option.none Option.none
          = get_customer_stats ([{ maKH := "KH1", tenKhachHang := "An", soDienThoai := Value.str "0901", tongChiTieu := Value.str "7 đ" }, { maKH := "KH2", tenKhachHang := "Ba", soDienThoai := Value.str "0902", tongChiTieu := Value.str "999,999 đ" }] : List Customer) ([{ ngayGio := "15/01/2024 09:00", maKH := "KH1", tenKhach := "An", chiTietSP := some [], tongThanhToan := Value.int 100, hinhThucTT := "cash" }, { ngayGio := "16/01/2024 09:00", maKH := "KH1", tenKhach := "An", chiTietSP := some [], tongThanhToan := Value.int 50, hinhThucTT := "cash" }] : List Invoice) Option.none Option.none)) ∧
    get_customer_stats ([{ maKH := "KH1", tenKhachHang := "An", soDienThoai := Value.str "0901", tongChiTieu := Value.str "7 đ" }, { maKH := "KH2", tenKhachHang := "Ba", soDienThoai := Value.str "0902", tongChiTieu := Value.str "999,999 đ" }] : List Customer) ([{ ngayGio := "15/01/2024 09:00", maKH := "KH1", tenKhach := "An", chiTietSP := some [], tongThanhToan := Value.int 100, hinhThucTT := "cash" }, { ngayGio := "16/01/2024 09:00", maKH := "KH1", tenKhach := "An", chiTietSP := some [], tongThanhToan := Value.int 50, hinhThucTT := "cash" }] : List Invoice) Option.none Option.none
      = ApiResult.success
          [{ code := "KH1", name := "An", total_spent := 150, invoice_count := 2 }] :=
  ⟨C9_get_customer_stats ([{ maKH := "KH1", tenKhachHang := "An", soDienThoai := Value.str "0901", tongChiTieu := Value.str "7 đ" }, { maKH := "KH2", tenKhachHang := "Ba", soDienThoai := Value.str "0902", tongChiTieu := Value.str "999,999 đ" }] : List Customer) ([{ ngayGio := "15/01/2024 09:00", maKH := "KH1", tenKhach := "An", chiTietSP := some [], tongThanhToan := Value.int 100, hinhThucTT := "cash" }, { ngayGio := "16/01/2024 09:00", maKH := "KH1", tenKhach := "An", chiTietSP := some [], tongThanhToan := Value.int 50, hinhThucTT := "cash" }] : List Invoice) Option.none Option.none, by decide⟩

/-- When no stored phone matches, the ledger update walks the whole list
without writing. -/
theorem update_customer_spent_no_match (phone amount : Value) :
    ∀ customers : List Customer,
      (∀ c ∈ customers, normStoredPhone c.soDienThoai ≠ normSearchPhone phone) →
      update_customer_spent customers phone amount = customers := by
  intro customers
  induction customers with
  | nil => intro _; rfl
  | cons c rest ih =>
    intro h
    simp only [update_customer_spent]
    rw [if_neg (h c (List.mem_cons_self c rest)),
      ih (fun c' hc' => h c' (List.mem_cons_of_mem c hc'))]

/-- At the first matching row, the ledger update writes the formatted sum
of the parsed old total and the coerced amount, and touches nothing
else. -/
theorem update_customer_spent_match (phone amount : Value) (c : Customer)
    (hmatch : normStoredPhone c.soDienThoai = normSearchPhone phone)
    (cur amt : Int) (hcur : parseSpentValue c.tongChiTieu = some cur)
    (hamt : coerceAmount amount = some amt) :
    ∀ pre : List Customer,
      (∀ c' ∈ pre, normStoredPhone c'.soDienThoai ≠ normSearchPhone phone) →
      ∀ post : List Customer,
        update_customer_spent (pre ++ c :: post) phone amount
          = pre ++ { c with tongChiTieu := Value.str (formatMoney (cur + amt)) } :: post := by
  intro pre
  induction pre with
  | nil =>
    intro _ post
    simp only [List.nil_append, update_customer_spent]
    rw [if_pos hmatch, hcur, hamt]
  | cons p pre' ih =>
    intro hpre post
    simp only [List.cons_append, update_customer_spent]
    rw [if_neg (hpre p (List.mem_cons_self p pre'))]
    exact congrArg (List.cons p)
      (ih (fun c' hc' => hpre c' (List.mem_cons_of_mem p hc')) post)

/-- C3: `update_customer_spent` is a no-op when no customer's stored
phone (spaces and the quoting apostrophe removed) equals the search phone
(spaces removed); when the list splits as `pre ++ c :: post` with `c` the
first match, the only write replaces `c`'s cached total with the parsed
old total plus the coerced amount, formatted with thousands separators
and the currency suffix. -/
theorem C3_update_customer_spent (customers : List Customer)
    (phone amount : Value) :
    ((∀ c ∈ customers, normStoredPhone c.soDienThoai ≠ normSearchPhone phone) →
      update_customer_spent customers phone amount = customers) ∧
    (∀ pre c post,
      customers = pre ++ c :: post →
      (∀ c' ∈ pre, normStoredPhone c'.soDienThoai ≠ normSearchPhone phone) →
      normStoredPhone c.soDienThoai = normSearchPhone phone →
      ∀ cur amt, parseSpentValue c.tongChiTieu = some cur →
        coerceAmount amount = some amt →
        update_customer_spent customers phone amount
          = pre ++ { c with tongChiTieu := Value.str (formatMoney (cur + amt)) }
              :: post) := by
  constructor
  · exact update_customer_spent_no_match phone amount customers
  · intro pre c post heq hpre hmatch cur amt hcur hamt
    rw [heq]
    exact update_customer_spent_match phone amount c hmatch cur amt hcur hamt
      pre hpre post

/-- Witness for `C3_update_customer_spent`: both branches applied at a
concrete ledger.  The stored phone `"0901 234 567"` matches the search
phone `"0901234567"` after space removal; the cached `"1,000 đ"` parses to
1000, the amount 500 is added, and `"1,500 đ"` is written back; a search
phone matching nobody leaves the list unchanged. -/
theorem C3_update_customer_spent_witness :
    update_customer_spent
        [{ maKH := "KH1", tenKhachHang := "An", soDienThoai := Value.str "0901 234 567", tongChiTieu := Value.str "1,000 đ" }, { maKH := "KH2", tenKhachHang := "Ba", soDienThoai := Value.str "0902", tongChiTieu := Value.str "2,000 đ" }]
        (Value.str "0901234567") (Value.int 500)
      = [{ maKH := "KH1", tenKhachHang := "An", soDienThoai := Value.str "0901 234 567", tongChiTieu := Value.str "1,500 đ" }, { maKH := "KH2", tenKhachHang := "Ba", soDienThoai := Value.str "0902", tongChiTieu := Value.str "2,000 đ" }] ∧
    update_customer_spent
        [{ maKH := "KH1", tenKhachHang := "An", soDienThoai := Value.str "0901 234 567", tongChiTieu := Value.str "1,000 đ" }, { maKH := "KH2", tenKhachHang := "Ba", soDienThoai := Value.str "0902", tongChiTieu := Value.str "2,000 đ" }]
        (Value.str "9999") (Value.int 500)
      = [{ maKH := "KH1", tenKhachHang := "An", soDienThoai := Value.str "0901 234 567", tongChiTieu := Value.str "1,000 đ" }, { maKH := "KH2", tenKhachHang := "Ba", soDienThoai := Value.str "0902", tongChiTieu := Value.str "2,000 đ" }] := by
  constructor
  · rw [(C3_update_customer_spent
      [{ maKH := "KH1", tenKhachHang := "An", soDienThoai := Value.str "0901 234 567", tongChiTieu := Value.str "1,000 đ" }, { maKH := "KH2", tenKhachHang := "Ba", soDienThoai := Value.str "0902", tongChiTieu := Value.str "2,000 đ" }]
      (Value.str "0901234567") (Value.int 500)).2
      [] { maKH := "KH1", tenKhachHang := "An", soDienThoai := Value.str "0901 234 567", tongChiTieu := Value.str "1,000 đ" }
      [{ maKH := "KH2", tenKhachHang := "Ba", soDienThoai := Value.str "0902", tongChiTieu := Value.str "2,000 đ" }]
      rfl (by decide) (by decide) 1000 500 (by decide) (by decide)]
    decide
  · exact (C3_update_customer_spent _ (Value.str "9999") (Value.int 500)).1
      (by decide)

end SkyCafe
